import Mathlib

set_option maxRecDepth 100000

/-!
Shallow embedding of the order/reservation core of the multi-store e-commerce
backend (src/services/reservation.service.ts, src/services/cart.service.ts,
src/services/order.service.ts, src/services/payment.service.ts).

The relational database is modelled as association lists inside an explicit
`DB` state record; every service method becomes a function from `DB` to a
result paired with the successor state.  Each awaited prisma call in the
source is one atomic state operation in the model.  JavaScript `number`
arithmetic on monetary values is modelled exactly as IEEE-754 binary64
rationals via `fl64`; database `Decimal` columns are exact rationals.
Identifiers (uuids, order numbers) are modelled by fresh counters, which
renders the collision-free generation of `crypto.randomUUID` and of the
collision-checked order-number generator.  The simulated payment gateway is
Math.random-driven in the source, so its outcome enters the model as an
explicit `pay : Bool` oracle for each checkout attempt; the number of charge
calls made against the gateway is recorded in the external counter
`charges`, which - unlike the database tables - is never rolled back by a
database transaction.
-/

namespace MultiStore

/-! ### Executable rational numbers

Monetary values are rational numbers.  Mathlib's `Rat` arithmetic is marked
irreducible, which blocks kernel evaluation of concrete witnesses, so the
model carries its own rational type `Q`: a numerator and positive
denominator kept in lowest terms by the smart constructor `Q.norm`, with
kernel-computable arithmetic.  Every `Q` produced by the model is in lowest
terms, so structural equality is value equality. -/

structure Q where
  num : Int
  den : Nat
deriving DecidableEq, Repr

/-- Build a `Q` in lowest terms from a numerator and a nonzero denominator. -/
def Q.norm (n : Int) (d : Nat) : Q :=
  let g := n.natAbs.gcd d
  if g = 0 then ⟨0, 1⟩ else ⟨n / (g : Int), d / g⟩

/-- Embed an integer. -/
def Q.ofInt (n : Int) : Q := ⟨n, 1⟩

/-- Addition. -/
def Q.add (a b : Q) : Q := Q.norm (a.num * b.den + b.num * a.den) (a.den * b.den)

/-- Subtraction. -/
def Q.sub (a b : Q) : Q := Q.norm (a.num * b.den - b.num * a.den) (a.den * b.den)

/-- Multiplication. -/
def Q.mul (a b : Q) : Q := Q.norm (a.num * b.num) (a.den * b.den)

/-- Division (the divisor is nonzero wherever the model divides). -/
def Q.div (a b : Q) : Q :=
  if b.num < 0 then Q.norm (-(a.num * b.den)) (a.den * b.num.natAbs)
  else Q.norm (a.num * b.den) (a.den * b.num.natAbs)

/-- Negation. -/
def Q.neg (a : Q) : Q := ⟨-a.num, a.den⟩

/-- Absolute value. -/
def Q.abs (a : Q) : Q := ⟨(a.num.natAbs : Int), a.den⟩

/-- Order: `a ≤ b`. -/
def Q.le (a b : Q) : Prop := a.num * b.den ≤ b.num * a.den

/-- Strict order: `a < b`. -/
def Q.lt (a b : Q) : Prop := a.num * b.den < b.num * a.den

instance (a b : Q) : Decidable (Q.le a b) := by unfold Q.le; infer_instance

instance (a b : Q) : Decidable (Q.lt a b) := by unfold Q.lt; infer_instance

/-- Floor to an integer. -/
def Q.floor (a : Q) : Int := Int.fdiv a.num a.den

/-! ### IEEE-754 binary64 model of JavaScript number arithmetic

The monetary computations of `calculateCartTotals` run on JS `number`
values, i.e. binary64 floating point.  `fl64` rounds an exact rational to
the nearest binary64 value (ties to even) for magnitudes in the normal
range `2^(-70) ≤ |q| < 2^70`, which covers every value arising in the
monetary computations; each JS arithmetic operation is the exact rational
operation followed by `fl64`. -/

/-- `2 ^ e` for an integer exponent, as a rational. -/
def pow2 (e : Int) : Q :=
  if 0 ≤ e then ⟨2 ^ e.toNat, 1⟩ else ⟨1, 2 ^ (-e).toNat⟩

/-- Binary exponent: the largest `e ∈ [-70, 69]` with `2^e ≤ q`
(for positive `q` in range). -/
def exp2 (q : Q) : Int :=
  ((List.range 140).map (fun i => (i : Int) - 70)).foldl
    (fun acc e => if Q.le (pow2 e) q then e else acc) (-70)

/-- Round a rational to the nearest IEEE-754 binary64 value, ties to even. -/
def fl64 (q : Q) : Q :=
  if q.num = 0 then ⟨0, 1⟩
  else
    let a := q.abs
    let e := exp2 a
    let y := a.mul (pow2 (52 - e))
    let m0 : Int := y.floor
    let fr := y.sub (Q.ofInt m0)
    let half : Q := ⟨1, 2⟩
    let m : Int :=
      if Q.lt half fr then m0 + 1
      else if Q.lt fr half then m0
      else if m0 % 2 = 0 then m0 else m0 + 1
    let mag := (Q.ofInt m).mul (pow2 (e - 52))
    if 0 < q.num then mag else mag.neg

/-- JS `x + y` on doubles. -/
def jsAdd (x y : Q) : Q := fl64 (x.add y)

/-- JS `x - y` on doubles. -/
def jsSub (x y : Q) : Q := fl64 (x.sub y)

/-- JS `x * y` on doubles. -/
def jsMul (x y : Q) : Q := fl64 (x.mul y)

/-- JS `x / y` on doubles. -/
def jsDiv (x y : Q) : Q := fl64 (x.div y)

/-- JS `Math.round`: nearest integer, ties toward positive infinity; its
results are integers below `2^53` here, hence exact doubles. -/
def jsRound (x : Q) : Q :=
  if Q.le ⟨1, 2⟩ (x.sub (Q.ofInt x.floor)) then Q.ofInt (x.floor + 1)
  else Q.ofInt x.floor

/-- `Number(d)` conversion of a `Decimal` column value to a double. -/
def jsNum (q : Q) : Q := fl64 q

deriving instance DecidableEq for Except

/-- Reservation status enum of the prisma `InventoryReservation` model. -/
inductive RStatus where
  | reserved
  | used
  | released
  | expired
  | cancelled
deriving DecidableEq, Repr

/-- Order lifecycle status. -/
inductive OStatus where
  | pending
  | confirmed
  | preparing
  | ready
  | completed
  | cancelled
deriving DecidableEq, Repr

/-- Payment status column of an order. -/
inductive PayStatus where
  | pending
  | paid
  | failed
deriving DecidableEq, Repr

/-- Status of an idempotency record. -/
inductive IStatus where
  | inProgress
  | completed
  | failed
deriving DecidableEq, Repr

/-- Idempotency key: `gen = true` marks a key produced by
`crypto.randomUUID()` inside `createOrder` (drawn from the fresh counter),
`gen = false` a client-supplied key.  Random uuids never collide with each
other or with client keys, which the tag plus counter renders exactly. -/
structure Key where
  gen : Bool
  val : Nat
deriving DecidableEq, Repr

/-- One row of the `storeInventory` table. -/
structure Inventory where
  storeId : Nat
  productId : Nat
  quantityAvailable : Int
  reservedQuantity : Int
  isAvailable : Bool
deriving DecidableEq, Repr

/-- One row of the `inventoryReservation` table. -/
structure Reservation where
  id : Nat
  storeId : Nat
  productId : Nat
  quantity : Int
  userId : Option Nat
  orderId : Option Nat
  status : RStatus
  expiresAt : Nat
deriving DecidableEq, Repr

/-- One row of the `cartItem` table; `priceAtTime` is a `Decimal` column. -/
structure CartItemR where
  id : Nat
  cartId : Nat
  productId : Nat
  quantity : Int
  priceAtTime : Q
deriving DecidableEq, Repr

/-- One row of the `shoppingCart` table. -/
structure CartR where
  id : Nat
  userId : Nat
  storeId : Nat
  isActive : Bool
deriving DecidableEq, Repr

/-- The five monetary fields produced by `calculateCartTotals`. -/
structure Totals where
  subtotal : Q
  tax : Q
  deliveryFee : Q
  discount : Q
  total : Q
deriving DecidableEq, Repr

/-- Order-item product name: either the name fetched from the external
catalog or the `Product ${id}` placeholder fallback. -/
inductive PName where
  | fromCatalog (name : Nat)
  | placeholder (productId : Nat)
deriving DecidableEq, Repr

/-- Delivery type of an order request. -/
inductive DType where
  | pickup
  | delivery
deriving DecidableEq, Repr

/-- One row of the `order` table (monetary columns as exact rationals). -/
structure OrderR where
  id : Nat
  orderNumber : Nat
  userId : Nat
  storeId : Nat
  status : OStatus
  paymentStatus : PayStatus
  totalAmount : Q
  taxAmount : Q
  deliveryFee : Q
  discountAmount : Q
  paymentMethod : Nat
  deliveryType : DType
deriving DecidableEq, Repr

/-- One row of the `orderItem` table. -/
structure OrderItemR where
  id : Nat
  orderId : Nat
  productId : Nat
  productName : PName
  quantity : Int
  unitPrice : Q
  totalPrice : Q
deriving DecidableEq, Repr

/-- Per-line failure reasons produced by `validateCartForCheckout`
(the source pushes one message string per failing line). -/
inductive VErr where
  | empty
  | missing (productId : Nat)
  | unavailable (productId : Nat)
  | insufficient (productId : Nat) (available quantity : Int)
deriving DecidableEq, Repr

/-- The `Error` values thrown by the services, with the data their message
strings interpolate.  `insufficientStock available requested` renders
"Only ${available} items available (${requested} requested)". -/
inductive Err where
  | productNotAvailable
  | insufficientStock (available requested : Int)
  | reservationNotFound
  | cannotCancel
  | alreadyProcessing
  | cartValidationFailed (reasons : List VErr)
  | cartEmpty
  | inventoryRowMissing
  | paymentFailed
deriving DecidableEq, Repr

/-- Checkout request body (`createOrderSchema`).  `deliveryAddress` and
`specialInstructions` are opaque blobs - their content never influences
control flow. -/
structure OrderData where
  storeId : Nat
  deliveryType : DType
  deliveryAddress : Option Nat
  specialInstructions : Option Nat
  paymentMethod : Nat
  idempotencyKey : Option Key
deriving DecidableEq, Repr

/-- The view assembled by `getOrderById`: the flat `OrderWithItems` object
with converted numbers, the item list and the joined store details. -/
structure OrderView where
  id : Nat
  orderNumber : Nat
  userId : Nat
  storeId : Nat
  status : OStatus
  paymentStatus : PayStatus
  totalAmount : Q
  taxAmount : Q
  deliveryFee : Q
  discountAmount : Q
  deliveryType : DType
  items : List OrderItemR
  storeName : Option Nat
deriving DecidableEq, Repr

/-- A JSON payload as returned by `createOrder` or stored in the
`response` column of an idempotency record.  The constructors mirror the
distinct object shapes that occur in the source: the flat enriched
`OrderWithItems` built by `getOrderById`, the raw transaction result
`{order, items}` that `createOrder` stores on success, the `{error}` object
stored on failure, and the JS `null` of a record whose response was never
written. -/
inductive Payload where
  | orderView (v : OrderView)
  | txResult (order : OrderR) (items : List OrderItemR)
  | errorInfo (e : Err)
  | nullResponse
deriving DecidableEq, Repr

/-- One row of the `idempotencyKey` table.  `requestHash` is
sha256(JSON.stringify(data)); since the hash is injective on normalized
bodies (collisions ignored) it is modelled by the request body itself. -/
structure IdemRec where
  id : Nat
  key : Key
  userId : Nat
  status : IStatus
  requestHash : OrderData
  response : Option Payload
deriving DecidableEq, Repr

/-- The whole persistent state: the relational tables, the fresh-value
counters (`nextId` for row ids and order numbers, `nextUuid` for generated
idempotency keys), the external charge counter of the payment gateway, and
the current clock.  `stores` maps a store id to its name code. -/
structure DB where
  inventory : List Inventory
  reservations : List Reservation
  carts : List CartR
  cartItems : List CartItemR
  orders : List OrderR
  orderItems : List OrderItemR
  idem : List IdemRec
  stores : List (Nat × Nat)
  nextId : Nat
  nextUuid : Nat
  charges : Nat
  now : Nat
deriving DecidableEq, Repr

/-! ### Reservation service (src/services/reservation.service.ts)

Each awaited prisma call is one atomic operation on `DB`.  A thrown
`Error` becomes an `Except.error` carrying the data its message
interpolates; the service returns the successor state alongside. -/

/-- `prisma.storeInventory.findFirst({where: {storeId, productId, isAvailable: true}})`. -/
def findAvailInv (db : DB) (s p : Nat) : Option Inventory :=
  db.inventory.find? (fun i => i.storeId = s && i.productId = p && i.isAvailable)

/-- Lookup of the inventory row by the `storeId_productId` unique key. -/
def lookupInv (db : DB) (s p : Nat) : Option Inventory :=
  db.inventory.find? (fun i => i.storeId = s && i.productId = p)

/-- The row update applied by `incReserved`: add `d` to the
`reservedQuantity` of the row with the matching key. -/
def incFn (s p : Nat) (d : Int) : Inventory → Inventory := fun i =>
  if i.storeId = s && i.productId = p then
    { i with reservedQuantity := i.reservedQuantity + d }
  else i

/-- `prisma.storeInventory.update` on the `storeId_productId` key, adding
`d` to `reservedQuantity` (prisma throws if the row is missing; a
decrement is an increment by `-d`). -/
def incReserved (db : DB) (s p : Nat) (d : Int) : Except Err DB :=
  if (lookupInv db s p).isSome then
    .ok { db with inventory := db.inventory.map (incFn s p d) }
  else .error .inventoryRowMissing

/-- `prisma.inventoryReservation.findUnique({where: {id}})`. -/
def findRes (db : DB) (rid : Nat) : Option Reservation :=
  db.reservations.find? (fun r => r.id = rid)

/-- The body of `createReservation` run against a previously read inventory
snapshot `snap`: the availability check uses the snapshot, the write phase
(`inventoryReservation.create` + `storeInventory.update` increment) acts on
the current state `db`.  The source performs the read, the check and the
write as separate awaited storage operations, so a concurrent interleaving
may run another call between a read and its write. -/
def reserveFromSnapshot (snap : Option Inventory) (db : DB) (s p : Nat) (qty : Int)
    (u o : Option Nat) (ttl : Nat) : Except Err Reservation × DB :=
  match snap with
  | none => (.error .productNotAvailable, db)
  | some inv =>
    let available := inv.quantityAvailable - inv.reservedQuantity
    if available < qty then (.error (.insufficientStock available qty), db)
    else
      let r : Reservation :=
        { id := db.nextId, storeId := s, productId := p, quantity := qty,
          userId := u, orderId := o, status := .reserved, expiresAt := db.now + ttl }
      let db1 := { db with reservations := db.reservations ++ [r], nextId := db.nextId + 1 }
      match incReserved db1 s p qty with
      | .ok db2 => (.ok r, db2)
      | .error e => (.error e, db1)

/-- `ReservationService.createReservation` (zod enforces `quantity ≥ 1` and
`1 ≤ ttlMinutes ≤ 60` at the boundary): the sequential execution, whose
snapshot is the state the call starts in. -/
def createReservation (db : DB) (s p : Nat) (qty : Int) (u o : Option Nat) (ttl : Nat) :
    Except Err Reservation × DB :=
  reserveFromSnapshot (findAvailInv db s p) db s p qty u o ttl

/-- Two concurrent `createReservation` calls for the same (store, product)
interleaved as read₁, read₂, check₁ + write₁, check₂ + write₂ — an
execution the source admits because the `findFirst` read and the
`update increment` write are separate awaited prisma calls rather than one
conditional update. -/
def twoConcurrentReserves (db : DB) (s p : Nat) (q1 q2 : Int) (u1 u2 : Option Nat)
    (ttl : Nat) : (Except Err Reservation × Except Err Reservation) × DB :=
  let snap1 := findAvailInv db s p
  let snap2 := findAvailInv db s p
  let (r1, db1) := reserveFromSnapshot snap1 db s p q1 u1 none ttl
  let (r2, db2) := reserveFromSnapshot snap2 db1 s p q2 u2 none ttl
  ((r1, r2), db2)

/-- `ReservationService.updateReservation`: looks the reservation up by id,
overwrites its status with no guard on the current status, then — when the
new status is `used`, `released` or `expired` (not `cancelled`) — calls
`releaseReservedQuantity`, i.e. decrements the ledger. -/
def updateReservation (db : DB) (rid : Nat) (st : RStatus) (oid : Option Nat) :
    Except Err Reservation × DB :=
  match findRes db rid with
  | none => (.error .reservationNotFound, db)
  | some r0 =>
    let r1 := { r0 with status := st, orderId := (oid.orElse fun _ => r0.orderId) }
    let db1 := { db with reservations := db.reservations.map (fun r =>
      if r.id = rid then { r with status := st, orderId := (oid.orElse fun _ => r.orderId) }
      else r) }
    if st = .used ∨ st = .released ∨ st = .expired then
      match incReserved db1 r0.storeId r0.productId (-r0.quantity) with
      | .ok db2 => (.ok r1, db2)
      | .error e => (.error e, db1)
    else (.ok r1, db1)

/-- `ReservationService.cancelReservation`: rejects unless the current
status is `reserved`, then sets `cancelled` and decrements the ledger. -/
def cancelReservation (db : DB) (rid : Nat) : Except Err Reservation × DB :=
  match findRes db rid with
  | none => (.error .reservationNotFound, db)
  | some r0 =>
    if r0.status ≠ RStatus.reserved then (.error .cannotCancel, db)
    else
      let r1 := { r0 with status := RStatus.cancelled }
      let db1 := { db with reservations := db.reservations.map (fun r =>
        if r.id = rid then { r with status := RStatus.cancelled } else r) }
      match incReserved db1 r0.storeId r0.productId (-r0.quantity) with
      | .ok db2 => (.ok r1, db2)
      | .error e => (.error e, db1)

/-- The `storeId_productId` unique constraint of the schema. -/
def InvWF (db : DB) : Prop :=
  (db.inventory.map fun i => (i.storeId, i.productId)).Nodup

instance (db : DB) : Decidable (InvWF db) := by unfold InvWF; infer_instance

/-- The `tx.inventoryReservation.updateMany` of `createOrder` step 7: mark
the attempt's reservations `used` and attach the order id.  It writes the
reservation table only — no inventory row is touched. -/
def markReservationsUsed (db : DB) (ids : List Nat) (oid : Nat) : DB :=
  { db with reservations := db.reservations.map (fun r =>
      if r.id ∈ ids then { r with status := RStatus.used, orderId := some oid } else r) }

/-! ### Cart service (src/services/cart.service.ts) -/

/-- Round a monetary double to two decimals the way the source does:
`Math.round(v * 100) / 100`, every operation on doubles. -/
def round2 (v : Q) : Q := jsDiv (jsRound (jsMul v (Q.ofInt 100))) (Q.ofInt 100)

/-- `CartService.calculateCartTotals` on the cart rows, exactly as the
source computes it on JS numbers: `subtotal` is the reduce of
`Number(priceAtTime) * quantity`, `taxRate` is the double literal `0.085`,
the delivery fee is the double literal `2.99` for subtotals under 25, and
every field is finally passed through `Math.round(x * 100) / 100`. -/
def calculateCartTotals (items : List CartItemR) : Totals :=
  let subtotal := items.foldl
    (fun sum it => jsAdd sum (jsMul (jsNum it.priceAtTime) (Q.ofInt it.quantity)))
    (Q.ofInt 0)
  let taxRate := fl64 (Q.norm 85 1000)
  let tax := jsMul subtotal taxRate
  let deliveryFee := if Q.lt subtotal (Q.ofInt 25) then fl64 (Q.norm 299 100) else Q.ofInt 0
  let discount := Q.ofInt 0
  let total := jsSub (jsAdd (jsAdd subtotal tax) deliveryFee) discount
  { subtotal := round2 subtotal, tax := round2 tax, deliveryFee := round2 deliveryFee,
    discount := round2 discount, total := round2 total }

/-- Modelled from the spec words, for comparison against
`calculateCartTotals` (claim C9): the same totals computed in exact
fixed-point decimal arithmetic — every value an exact rational, the final
rounding exact round-half-up to two decimal digits. -/
def calculateCartTotalsDecimal (items : List CartItemR) : Totals :=
  let r2 := fun (v : Q) => (jsRound (v.mul (Q.ofInt 100))).div (Q.ofInt 100)
  let subtotal := items.foldl
    (fun sum it => sum.add (it.priceAtTime.mul (Q.ofInt it.quantity))) (Q.ofInt 0)
  let tax := subtotal.mul (Q.norm 85 1000)
  let deliveryFee := if Q.lt subtotal (Q.ofInt 25) then Q.norm 299 100 else Q.ofInt 0
  let discount := Q.ofInt 0
  let total := ((subtotal.add tax).add deliveryFee).sub discount
  { subtotal := r2 subtotal, tax := r2 tax, deliveryFee := r2 deliveryFee,
    discount := r2 discount, total := r2 total }

/-- An exact decimal value with two fractional digits. -/
def TwoDecimal (v : Q) : Prop := ∃ n : Int, v = Q.norm n 100

/-- `prisma.shoppingCart.findFirst({where: {userId, storeId, isActive: true}})`. -/
def getCart (db : DB) (u s : Nat) : Option CartR :=
  db.carts.find? (fun c => c.userId = u && c.storeId = s && c.isActive)

/-- The items of a cart, in insertion (createdAt) order. -/
def cartItemsOf (db : DB) (cid : Nat) : List CartItemR :=
  db.cartItems.filter (fun it => it.cartId = cid)

/-- The value returned by `CartService.getCartWithItems`: the cart row,
its items paired with the catalog lookup result (`null` on catalog
failure), and the computed totals. -/
structure CartWI where
  cart : CartR
  items : List (CartItemR × Option Nat)
  totals : Totals
deriving DecidableEq, Repr

/-- `CartService.getCartWithItems`; `catalog` is the external Strapi
product lookup. -/
def getCartWithItems (catalog : Nat → Option Nat) (db : DB) (u s : Nat) : Option CartWI :=
  match getCart db u s with
  | none => none
  | some c =>
    let its := cartItemsOf db c.id
    some { cart := c, items := its.map (fun it => (it, catalog it.productId)),
           totals := calculateCartTotals its }

/-- The per-line check of `validateCartForCheckout`: bare key lookup (no
availability filter in the `findFirst`), then the `isAvailable` flag, then
`quantityAvailable < item.quantity` — `reservedQuantity` is not read. -/
def validateItem (db : DB) (s : Nat) (it : CartItemR) : Option VErr :=
  match lookupInv db s it.productId with
  | none => some (.missing it.productId)
  | some inv =>
    if ¬ inv.isAvailable then some (.unavailable it.productId)
    else if inv.quantityAvailable < it.quantity then
      some (.insufficient it.productId inv.quantityAvailable it.quantity)
    else none

/-- `CartService.validateCartForCheckout`: the list of error reasons (empty
means valid).  It only reads state. -/
def validateCartForCheckout (catalog : Nat → Option Nat) (db : DB) (u s : Nat) : List VErr :=
  match getCartWithItems catalog db u s with
  | none => [VErr.empty]
  | some cw =>
    if cw.items.isEmpty then [VErr.empty]
    else cw.items.filterMap (fun itp => validateItem db s itp.1)

/-- `tx.cartItem.deleteMany({where: {cartId}})`. -/
def deleteCartItems (db : DB) (cid : Nat) : DB :=
  { db with cartItems := db.cartItems.filter (fun it => it.cartId ≠ cid) }

/-! ### Order service (src/services/order.service.ts) -/

/-- `prisma.idempotencyKey.findUnique` on the `key_userId` unique key. -/
def findIdem (db : DB) (k : Key) (u : Nat) : Option IdemRec :=
  db.idem.find? (fun r => r.key = k && r.userId = u)

/-- `OrderService.getOrderById`: the order row joined with its items and
the store details, flattened into the `OrderWithItems` shape. -/
def getOrderById (db : DB) (oid : Nat) : Option OrderView :=
  match db.orders.find? (fun o => o.id = oid) with
  | none => none
  | some o => some
      { id := o.id, orderNumber := o.orderNumber, userId := o.userId, storeId := o.storeId,
        status := o.status, paymentStatus := o.paymentStatus, totalAmount := o.totalAmount,
        taxAmount := o.taxAmount, deliveryFee := o.deliveryFee,
        discountAmount := o.discountAmount, deliveryType := o.deliveryType,
        items := db.orderItems.filter (fun it => it.orderId = oid),
        storeName := (db.stores.find? (fun st => st.1 = o.storeId)).map (fun st => st.2) }

/-- The for-loop at the start of the checkout transaction: for each cart
line create a `reserved` reservation row (no availability check here!) and
increment the ledger's `reservedQuantity`. -/
def reserveLoop (db : DB) (u s : Nat) (items : List CartItemR) :
    Except Err (List Reservation × DB) :=
  match items with
  | [] => .ok ([], db)
  | it :: rest =>
    let r : Reservation :=
      { id := db.nextId, storeId := s, productId := it.productId, quantity := it.quantity,
        userId := some u, orderId := none, status := .reserved,
        expiresAt := db.now + 15 * 60 * 1000 }
    let db1 := { db with reservations := db.reservations ++ [r], nextId := db.nextId + 1 }
    match incReserved db1 s it.productId it.quantity with
    | .error e => .error e
    | .ok db2 =>
      match reserveLoop db2 u s rest with
      | .error e => .error e
      | .ok (rs, db3) => .ok (r :: rs, db3)

/-- The `Promise.all` of `tx.orderItem.create`: the item snapshot rows.
`productName` falls back to the `Product ${id}` placeholder when the
catalog lookup failed, `unitPrice` stores the decimal as-is, `totalPrice`
is the double product `Number(priceAtTime) * quantity`. -/
def mkOrderItems (catalog : Nat → Option Nat) (db : DB) (oid : Nat) (items : List CartItemR) :
    List OrderItemR × DB :=
  match items with
  | [] => ([], db)
  | it :: rest =>
    let oi : OrderItemR :=
      { id := db.nextId, orderId := oid, productId := it.productId,
        productName := match catalog it.productId with
          | some n => .fromCatalog n
          | none => .placeholder it.productId,
        quantity := it.quantity, unitPrice := it.priceAtTime,
        totalPrice := jsMul (jsNum it.priceAtTime) (Q.ofInt it.quantity) }
    let db1 := { db with
      orderItems := db.orderItems ++ [oi], nextId := db.nextId + 1 }
    let res := mkOrderItems catalog db1 oid rest
    (oi :: res.1, res.2)

/-- The body of the `prisma.$transaction` callback of `createOrder`:
reservation loop, order-number generation (a fresh value — the source
regenerates on collision), order + item creation, the payment call (an
external effect: it bumps the charge counter and its outcome is the `pay`
oracle), then on success the payment-status update, the reserved→used
bulk update and the cart clearing.  The returned `order` value is the row
as created, still `pending`/`pending` — the source never re-reads it. -/
def txBody (catalog : Nat → Option Nat) (pay : Bool) (u : Nat) (data : OrderData)
    (cw : CartWI) (db : DB) : Except Err (OrderR × List OrderItemR) × DB :=
  match reserveLoop db u data.storeId (cw.items.map Prod.fst) with
  | .error e => (.error e, db)
  | .ok (rs, db1) =>
    let onum := db1.nextId
    let db2 := { db1 with nextId := db1.nextId + 1 }
    let order : OrderR :=
      { id := db2.nextId, orderNumber := onum, userId := u, storeId := data.storeId,
        status := .pending, paymentStatus := .pending, totalAmount := cw.totals.total,
        taxAmount := cw.totals.tax, deliveryFee := cw.totals.deliveryFee,
        discountAmount := cw.totals.discount, paymentMethod := data.paymentMethod,
        deliveryType := data.deliveryType }
    let db3 := { db2 with orders := db2.orders ++ [order], nextId := db2.nextId + 1 }
    let (oitems, db4) := mkOrderItems catalog db3 order.id (cw.items.map Prod.fst)
    let db5 := { db4 with charges := db4.charges + 1 }
    if pay then
      let db6 := { db5 with orders := db5.orders.map (fun o =>
        if o.id = order.id then { o with
            paymentStatus := PayStatus.paid,
            status := OStatus.confirmed } else o) }
      let db7 := markReservationsUsed db6 (rs.map (fun r => r.id)) order.id
      let db8 := deleteCartItems db7 cw.cart.id
      (.ok (order, oitems), db8)
    else (.error .paymentFailed, db5)

/-- Rollback of an interactive prisma transaction: every table write of the
transaction is discarded; the charge made against the external payment
gateway, and the consumed fresh identifiers, are not database writes and
survive. -/
def txRollback (pre post : DB) : DB :=
  { post with
    inventory := pre.inventory, reservations := pre.reservations,
    carts := pre.carts, cartItems := pre.cartItems, orders := pre.orders,
    orderItems := pre.orderItems, idem := pre.idem }

/-- The reservations `releaseReservationsForFailedOrder` selects: the
user's rows at the store still `reserved` with no order attached —
whoever created them. -/
def matchedForRelease (db : DB) (u s : Nat) : List Reservation :=
  db.reservations.filter (fun r => r.userId = some u && r.storeId = s &&
    r.status = RStatus.reserved && r.orderId = none)

/-- The for-loop of `releaseReservationsForFailedOrder`: each selected
reservation is put through `updateReservation {status: released}`. -/
def releaseList (db : DB) (l : List Reservation) : Except Err Unit × DB :=
  match l with
  | [] => (.ok (), db)
  | r :: t =>
    match updateReservation db r.id RStatus.released none with
    | (.ok _, db1) => releaseList db1 t
    | (.error e, db1) => (.error e, db1)

/-- `OrderService.releaseReservationsForFailedOrder`. -/
def releaseReservationsForFailedOrder (db : DB) (u s : Nat) : Except Err Unit × DB :=
  releaseList db (matchedForRelease db u s)

/-- `crypto.randomUUID()`: a fresh generated key. -/
def genKey (db : DB) : Key := ⟨true, db.nextUuid⟩

/-- The try-block of `createOrder` (after the idempotency record was
created with row id `recId`): cart validation, cart fetch, the
transaction, then the completed-update of the idempotency record with
the raw `{order, items}` transaction result as stored response, and
finally the enriched `getOrderById` view as return value. -/
def attempt (catalog : Nat → Option Nat) (pay : Bool) (db1 : DB) (u : Nat) (data : OrderData)
    (recId : Nat) : Except Err Payload × DB :=
  match validateCartForCheckout catalog db1 u data.storeId with
  | [] =>
    match getCartWithItems catalog db1 u data.storeId with
    | none => (.error .cartEmpty, db1)
    | some cw =>
      if cw.items.isEmpty then (.error .cartEmpty, db1)
      else
        match txBody catalog pay u data cw db1 with
        | (.error e, dbe) => (.error e, txRollback db1 dbe)
        | (.ok (order, oitems), db8) =>
          let db9 := { db8 with idem := db8.idem.map (fun r =>
            if r.id = recId then { r with
              status := IStatus.completed,
              response := some (Payload.txResult order oitems) } else r) }
          match getOrderById db9 order.id with
          | some v => (.ok (.orderView v), db9)
          | none => (.ok .nullResponse, db9)
  | errs => (.error (.cartValidationFailed errs), db1)

/-- The `in_progress` idempotency record created by `createOrder`,
storing the request fingerprint. -/
def claimRec (db : DB) (key : Key) (u : Nat) (data : OrderData) : IdemRec :=
  { id := db.nextId, key := key, userId := u,
    status := .inProgress, requestHash := data, response := none }

/-- The state after the idempotency record is created. -/
def claimDB (db : DB) (key : Key) (u : Nat) (data : OrderData) : DB :=
  { db with idem := db.idem ++ [claimRec db key u data], nextId := db.nextId + 1 }

/-- Mark the idempotency record `failed`, storing the error payload. -/
def markFailed (db2 : DB) (recId : Nat) (e : Err) : DB :=
  { db2 with idem := db2.idem.map (fun r =>
    if r.id = recId then { r with
      status := IStatus.failed,
      response := some (Payload.errorInfo e) } else r) }

/-- The catch-block of `createOrder`: mark the idempotency record `failed`
with the error payload, release the user's matching reservations, then
rethrow (an error of the release loop itself replaces the original). -/
def failPath (db2 : DB) (u s : Nat) (recId : Nat) (e : Err) : Except Err Payload × DB :=
  match releaseReservationsForFailedOrder (markFailed db2 recId e) u s with
  | (.ok _, db4) => (.error e, db4)
  | (.error e2, db4) => (.error e2, db4)

/-- The fresh path of `createOrder` once the key is claimed: create the
`in_progress` record storing the request fingerprint, run the try-block;
on any error run the catch-block before rethrowing. -/
def createOrderFresh (catalog : Nat → Option Nat) (pay : Bool) (db : DB) (u : Nat)
    (data : OrderData) (key : Key) : Except Err Payload × DB :=
  match attempt catalog pay (claimDB db key u data) u data (claimRec db key u data).id with
  | (.ok payload, db2) => (.ok payload, db2)
  | (.error e, db2) => failPath db2 u data.storeId (claimRec db key u data).id e

/-- `OrderService.createOrder`: resolve the idempotency key (generating a
fresh uuid when the caller omitted one), branch on an existing record —
replay the stored response verbatim if `completed` (no fingerprint
comparison happens anywhere), conflict if `in_progress`, delete and retry
if `failed` — then run the fresh path. -/
def createOrder (catalog : Nat → Option Nat) (pay : Bool) (db : DB) (u : Nat)
    (data : OrderData) : Except Err Payload × DB :=
  let key := match data.idempotencyKey with | some k => k | none => genKey db
  let db0 := match data.idempotencyKey with
    | some _ => db
    | none => { db with nextUuid := db.nextUuid + 1 }
  match findIdem db0 key u with
  | some rec =>
    match rec.status with
    | .completed => (.ok (rec.response.getD Payload.nullResponse), db0)
    | .inProgress => (.error .alreadyProcessing, db0)
    | .failed =>
      let db1 := { db0 with idem := db0.idem.filter (fun r => r.id ≠ rec.id) }
      createOrderFresh catalog pay db1 u data key
  | none => createOrderFresh catalog pay db0 u data key

/-! ### Well-formedness invariants enforced by the schema -/

/-- Reservation row ids are unique (primary key). -/
def ResWF (db : DB) : Prop := (db.reservations.map fun r => r.id).Nodup

/-- Idempotency row ids stay below the fresh counter. -/
def IdemIdsWF (db : DB) : Prop := ∀ rec ∈ db.idem, rec.id < db.nextId

/-- Generated (uuid) keys stored so far stay below the fresh counter —
i.e. a newly generated uuid differs from every stored one. -/
def GenKeysWF (db : DB) : Prop :=
  ∀ rec ∈ db.idem, rec.key.gen = true → rec.key.val < db.nextUuid

instance (db : DB) : Decidable (ResWF db) := by unfold ResWF; infer_instance

instance (db : DB) : Decidable (IdemIdsWF db) := by unfold IdemIdsWF; infer_instance

instance (db : DB) : Decidable (GenKeysWF db) := by unfold GenKeysWF; infer_instance

/-- The cumulative ledger effect of releasing each reservation of the list
in order: each one decrements `reservedQuantity` of its inventory row by
its quantity. -/
def releaseAllInv (inv : List Inventory) (l : List Reservation) : List Inventory :=
  match l with
  | [] => inv
  | r :: t => releaseAllInv (inv.map (incFn r.storeId r.productId (-r.quantity))) t

/-! ### Concrete states used by witnesses and counterexamples -/

/-- A catalog where product `p` carries name code `100 + p`. -/
def cat1 : Nat → Option Nat := fun p => some (100 + p)

/-- The empty database. -/
def emptyDB : DB :=
  { inventory := [], reservations := [], carts := [], cartItems := [], orders := [],
    orderItems := [], idem := [], stores := [], nextId := 1, nextUuid := 0,
    charges := 0, now := 0 }

/-- Store 1 sells product 1: five in stock, none reserved. -/
def dbRace : DB := { emptyDB with inventory := [⟨1, 1, 5, 0, true⟩] }

/-- A reservation already `released` (its hold already returned: the ledger
shows zero reserved). -/
def dbRel : DB :=
  { emptyDB with
    inventory := [⟨1, 1, 5, 0, true⟩],
    reservations := [⟨1, 1, 1, 2, some 7, none, RStatus.released, 100⟩] }

/-- A live reservation of quantity 2 whose hold the ledger carries. -/
def dbUsed : DB :=
  { emptyDB with
    inventory := [⟨1, 1, 5, 2, true⟩],
    reservations := [⟨1, 1, 1, 2, some 7, none, RStatus.reserved, 100⟩] }

/-- Five in stock, three already reserved: two available to sell. -/
def dbStock : DB := { emptyDB with inventory := [⟨1, 1, 5, 3, true⟩] }

/-- User 7 holds a cart at store 1 with 3 units of product 2, while the
ledger shows 5 in stock of which 4 reserved (one available to sell). -/
def dbVal : DB :=
  { emptyDB with
    inventory := [⟨1, 2, 5, 4, true⟩],
    carts := [⟨10, 7, 1, true⟩],
    cartItems := [⟨11, 10, 2, 3, Q.ofInt 1⟩] }

/-- One cart line: one unit at price 1.00 (subtotal below 25, so the 2.99
delivery fee applies). -/
def feeItems : List CartItemR := [⟨11, 10, 2, 1, Q.ofInt 1⟩]

/-- Checkout fixture: user 7's one-line cart at store 1, stock available,
and an unrelated pre-existing `reserved` reservation (row 3, quantity 2,
no order attached) from an earlier attempt whose hold the ledger carries
(`reservedQuantity = 2`). -/
def dbPay : DB :=
  { emptyDB with
    inventory := [⟨1, 2, 5, 2, true⟩],
    reservations := [⟨3, 1, 2, 2, some 7, none, RStatus.reserved, 99⟩],
    carts := [⟨10, 7, 1, true⟩],
    cartItems := [⟨11, 10, 2, 1, Q.ofInt 1⟩],
    stores := [(1, 50)],
    nextId := 20 }

/-- Checkout fixture without the extra reservation. -/
def dbIdem : DB :=
  { emptyDB with
    inventory := [⟨1, 2, 5, 0, true⟩],
    carts := [⟨10, 7, 1, true⟩],
    cartItems := [⟨11, 10, 2, 1, Q.ofInt 1⟩],
    stores := [(1, 50)],
    nextId := 20 }

/-- A checkout request with client idempotency key 42. -/
def dataK : OrderData := ⟨1, DType.pickup, none, none, 3, some ⟨false, 42⟩⟩

/-- The same checkout request without an idempotency key. -/
def dataNoKey : OrderData := ⟨1, DType.pickup, none, none, 3, none⟩

/-- A different request body (delivery, other payment method) reusing
key 42 — its fingerprint differs from `dataK`. -/
def dataFp2 : OrderData := ⟨1, DType.delivery, none, none, 4, some ⟨false, 42⟩⟩

/-- An order row as stored in a completed idempotency response. -/
def ordStored : OrderR :=
  ⟨23, 22, 7, 1, OStatus.pending, PayStatus.pending, Q.ofInt 10, Q.ofInt 1,
   Q.ofInt 0, Q.ofInt 0, 3, DType.pickup⟩

/-- A completed idempotency record for (key 42, user 7) whose stored
fingerprint is the body `dataK`. -/
def recFp : IdemRec :=
  ⟨5, ⟨false, 42⟩, 7, IStatus.completed, dataK, some (Payload.txResult ordStored [])⟩

/-- A database holding only that completed record. -/
def dbFp : DB := { emptyDB with idem := [recFp], nextId := 6 }

/-- Discriminator: the call returned the enriched `OrderWithItems` view. -/
def isOkOrderView : Except Err Payload → Bool
  | .ok (.orderView _) => true
  | _ => false

/-- Discriminator: the call returned a raw `{order, items}` object. -/
def isOkTxResult : Except Err Payload → Bool
  | .ok (.txResult _ _) => true
  | _ => false

/-- Mark every reservation whose id is listed as `released` (the joint
effect of the compensation loop on the reservation table). -/
def setReleased (ids : List Nat) : Reservation → Reservation := fun r =>
  if r.id ∈ ids then { r with status := RStatus.released } else r

/-- Extract the payload of a successful result (`nullResponse` otherwise). -/
def okPayload : Except Err Payload → Payload
  | .ok p => p
  | .error _ => Payload.nullResponse

/-! ### List lemmas -/

/-- `find?` commutes with a map that changes no predicate-relevant field. -/
theorem find?_map_congr {α : Type} (l : List α) (p : α → Bool) (f : α → α)
    (hp : ∀ a, p (f a) = p a) : (l.map f).find? p = (l.find? p).map f := by
  induction l with
  | nil => simp
  | cons a t ih =>
    by_cases h : p a
    · simp [List.find?_cons, hp, h]
    · simp only [List.map_cons, List.find?_cons, hp, h]
      simpa [h] using ih

/-- Under the unique-key constraint, the row found with the availability
filter is the row found by bare key lookup. -/
theorem find?_key_of_avail (l : List Inventory) (s p : Nat) (inv : Inventory)
    (hnd : (l.map fun i => (i.storeId, i.productId)).Nodup)
    (hf : l.find? (fun i => i.storeId = s && i.productId = p && i.isAvailable) = some inv) :
    l.find? (fun i => i.storeId = s && i.productId = p) = some inv := by
  induction l with
  | nil => simp at hf
  | cons a t ih =>
    simp only [List.map_cons, List.nodup_cons] at hnd
    simp only [List.find?] at hf ⊢
    cases hpa : (decide (a.storeId = s) && decide (a.productId = p) && a.isAvailable) with
    | true =>
      rw [hpa] at hf
      cases hf
      simp only [Bool.and_assoc, Bool.and_eq_true, decide_eq_true_eq] at hpa
      simp [hpa.1, hpa.2.1]
    | false =>
      rw [hpa] at hf
      cases hka : (decide (a.storeId = s) && decide (a.productId = p)) with
      | true =>
        exfalso
        have hmem := List.mem_of_find?_eq_some hf
        have hpi := List.find?_some hf
        simp only [Bool.and_assoc, Bool.and_eq_true, decide_eq_true_eq] at hpi hka
        exact hnd.1 (by
          have h2 : (inv.storeId, inv.productId) ∈ t.map fun i => (i.storeId, i.productId) :=
            List.mem_map_of_mem _ hmem
          simpa [hka.1, hka.2, hpi.1, hpi.2.1] using h2)
      | false =>
        exact ih hnd.2 hf



/-! ### Claim theorems -/

/-- C1: the no-oversell property fails on the code.  `createReservation`
performs the availability read (`findFirst`), the check, and the
`reservedQuantity` increment as separate awaited storage operations, not a
single atomic read-modify-write.  Under the interleaving read₁, read₂,
write₁, write₂ of two concurrent calls for quantity 3 each against
`quantityAvailable = 5, reservedQuantity = 0`, both calls pass the check
against their stale snapshots and both succeed: the ledger ends at
`reservedQuantity = 6 > 5`, and the sum of successful quantities 3 + 3
exceeds the available 5. -/
theorem reserve_interleaving_oversell :
    (twoConcurrentReserves dbRace 1 1 3 3 (some 7) (some 8) 15).1.1.isOk = true ∧
    (twoConcurrentReserves dbRace 1 1 3 3 (some 7) (some 8) 15).1.2.isOk = true ∧
    lookupInv (twoConcurrentReserves dbRace 1 1 3 3 (some 7) (some 8) 15).2 1 1 =
      some ⟨1, 1, 5, 6, true⟩ ∧
    ¬ (3 + 3 ≤ (5 : Int)) := by decide

/-- C4: a second transition of an already-terminal reservation into a
terminal non-`used` state is NOT rejected by `updateReservation`: the
reservation of `dbRel` is already `released` (ledger back at 0), yet
releasing it again succeeds and drives `reservedQuantity` to −2 < 0 —
the very double-release the spec forbids.  `cancelReservation`, by
contrast, does carry the guard and rejects. -/
theorem double_release_unchecked :
    (updateReservation dbRel 1 RStatus.released none).1.isOk = true ∧
    lookupInv (updateReservation dbRel 1 RStatus.released none).2 1 1 =
      some ⟨1, 1, 5, -2, true⟩ ∧
    ((-2 : Int) < 0) ∧
    (cancelReservation dbRel 1).1 = .error .cannotCancel := by decide

/-- C8: `validateCartForCheckout` checks `quantityAvailable < quantity`
only and never reads `reservedQuantity`: with 5 in stock, 4 reserved (one
available to sell) and a cart line of 3, validation reports the cart
valid, although `availableToSell = 5 − 4 = 1 < 3`. -/
theorem validate_ignores_reserved :
    validateCartForCheckout cat1 dbVal 7 1 = [] ∧
    lookupInv dbVal 1 2 = some ⟨1, 2, 5, 4, true⟩ ∧
    ((5 : Int) - 4 < 3) := by decide

/-- C6 counterexample: the reserved→used transition through
`ReservationService.updateReservation` DOES decrement the ledger: the
reservation of `dbUsed` holds quantity 2 with `reservedQuantity = 2`;
marking it `used` succeeds and leaves `reservedQuantity = 0 ≠ 2` — the
hold does not persist through `used` on this code path. -/
theorem used_transition_decrements :
    lookupInv dbUsed 1 1 = some ⟨1, 1, 5, 2, true⟩ ∧
    (updateReservation dbUsed 1 RStatus.used none).1.isOk = true ∧
    lookupInv (updateReservation dbUsed 1 RStatus.used none).2 1 1 =
      some ⟨1, 1, 5, 0, true⟩ ∧
    ((0 : Int) ≠ 2) := by decide


/-- The smart constructor never enlarges the denominator. -/
theorem norm_den_le (n : Int) (d : Nat) (hd : 0 < d) : (Q.norm n d).den ≤ d := by
  unfold Q.norm
  by_cases h : n.natAbs.gcd d = 0
  · simp [h]
    omega
  · simp [h]
    exact Nat.div_le_self d _

/-- C9 counterexample: the delivery fee the code computes for a one-line
cart (price 1.00, quantity 1, subtotal under 25) is the binary64 double
nearest to 2.99 — a dyadic rational with denominator 2^49 — and not an
exact decimal with two fractional digits. -/
theorem fee_not_two_decimal : ¬ TwoDecimal (calculateCartTotals feeItems).deliveryFee := by
  intro htd
  obtain ⟨n, hn⟩ := htd
  have hden : (calculateCartTotals feeItems).deliveryFee.den = 562949953421312 := by decide
  rw [hn] at hden
  have hle := norm_den_le n 100 (by decide)
  omega

/-- C9 amended: the monetary fields are computed in binary64 floating
point, each field finally passed through `Math.round(x * 100) / 100` on
doubles; the resulting delivery fee is `fl64 2.99`, the double nearest to
2.99, which differs from the exact two-decimal 2.99 that the fixed-point
decimal computation (`calculateCartTotalsDecimal`, modelled from the spec
words) produces. -/
theorem fee_float_vs_decimal :
    (calculateCartTotals feeItems).deliveryFee = fl64 (Q.norm 299 100) ∧
    fl64 (Q.norm 299 100) ≠ Q.norm 299 100 ∧
    (calculateCartTotalsDecimal feeItems).deliveryFee = Q.norm 299 100 := by decide

/-- C7 counterexample: `dbFp` holds a completed record for key 42 whose
stored fingerprint is the body `dataK`; a new call reusing key 42 with the
different body `dataFp2` is not rejected — the stored response is replayed
verbatim and nothing is written (no `IdempotencyKeyReused` error exists in
the source). -/
theorem fingerprint_mismatch_replays :
    dataFp2 ≠ dataK ∧
    createOrder cat1 true dbFp 7 dataFp2 =
      (.ok (Payload.txResult ordStored []), dbFp) := by decide


/-- C2 counterexample: user 7 checks out a one-line cart at store 1 while
an unrelated pre-attempt reservation (row 3, quantity 2, `reserved`, no
order) holds `reservedQuantity = 2`; the payment fails.  The attempt's own
transaction writes roll back, but the compensation query of
`releaseReservationsForFailedOrder` — keyed only on (user, store,
`reserved`, no order id) — then releases the foreign row 3 as well:
afterwards `reservedQuantity = 0`, not its pre-attempt value 2, and a
reservation belonging to a different attempt ended `released`. -/
theorem payment_failure_releases_foreign :
    (createOrder cat1 false dbPay 7 dataK).1 = .error Err.paymentFailed ∧
    lookupInv dbPay 1 2 = some ⟨1, 2, 5, 2, true⟩ ∧
    lookupInv (createOrder cat1 false dbPay 7 dataK).2 1 2 = some ⟨1, 2, 5, 0, true⟩ ∧
    ((0 : Int) ≠ 2) ∧
    findRes dbPay 3 = some ⟨3, 1, 2, 2, some 7, none, RStatus.reserved, 99⟩ ∧
    findRes (createOrder cat1 false dbPay 7 dataK).2 3 =
      some ⟨3, 1, 2, 2, some 7, none, RStatus.released, 99⟩ := by decide

/-- C5 counterexample: a successful checkout with key 42 followed by its
replay.  Exactly one order exists and exactly one charge was made across
both calls, but the second call does not return the payload the first call
returned: the first returns the enriched `OrderWithItems` view built by
`getOrderById`, the replay returns the raw `{order, items}` transaction
result stored in the idempotency record (whose order still reads
`pending`). -/
theorem replay_payload_differs :
    isOkOrderView (createOrder cat1 true dbIdem 7 dataK).1 = true ∧
    isOkTxResult (createOrder cat1 true (createOrder cat1 true dbIdem 7 dataK).2 7 dataK).1 = true ∧
    (createOrder cat1 true (createOrder cat1 true dbIdem 7 dataK).2 7 dataK).1 ≠
      (createOrder cat1 true dbIdem 7 dataK).1 ∧
    (createOrder cat1 true (createOrder cat1 true dbIdem 7 dataK).2 7 dataK).2.orders.length = 1 ∧
    (createOrder cat1 true (createOrder cat1 true dbIdem 7 dataK).2 7 dataK).2.charges = 1 := by
  decide


/-- `incFn` never changes the key fields of a row. -/
theorem incFn_key (s2 p2 : Nat) (d : Int) (a : Inventory) :
    (incFn s2 p2 d a).storeId = a.storeId ∧ (incFn s2 p2 d a).productId = a.productId := by
  unfold incFn
  split <;> simp

/-- Key lookup after an `incFn` map: the found row is the mapped row. -/
theorem lookupInv_map_incFn (db2 db : DB) (s p s2 p2 : Nat) (d : Int)
    (h : db2.inventory = db.inventory.map (incFn s2 p2 d)) :
    lookupInv db2 s p = (lookupInv db s p).map (incFn s2 p2 d) := by
  unfold lookupInv
  rw [h]
  exact find?_map_congr _ _ _ (fun a => by
    have hk := incFn_key s2 p2 d a
    rw [hk.1, hk.2])

/-- `incReserved` succeeds exactly when the row exists. -/
theorem incReserved_ok (db : DB) (s p : Nat) (d : Int)
    (h : (lookupInv db s p).isSome = true) :
    incReserved db s p d = .ok { db with inventory := db.inventory.map (incFn s p d) } := by
  unfold incReserved
  rw [if_pos h]

/-- `incReserved` stated through the inventory list, for states given as
record updates. -/
theorem incReserved_ok2 (db : DB) (s p : Nat) (d : Int) (l : List Inventory)
    (hinv : db.inventory = l)
    (h : (l.find? (fun i => i.storeId = s && i.productId = p)).isSome = true) :
    incReserved db s p d = .ok { db with inventory := db.inventory.map (incFn s p d) } := by
  unfold incReserved
  have h2 : (lookupInv db s p).isSome = true := by unfold lookupInv; rw [hinv]; exact h
  rw [if_pos h2]

/-- On the matching row `incFn` adds `d` to `reservedQuantity`. -/
theorem incFn_eq_of_key (s p : Nat) (d : Int) (inv : Inventory)
    (h1 : inv.storeId = s) (h2 : inv.productId = p) :
    incFn s p d inv = { inv with reservedQuantity := inv.reservedQuantity + d } := by
  unfold incFn
  rw [if_pos (by simp [h1, h2])]

/-- The key fields of the row found by key lookup. -/
theorem lookupInv_key (db : DB) (s p : Nat) (inv : Inventory)
    (h : lookupInv db s p = some inv) : inv.storeId = s ∧ inv.productId = p := by
  have := List.find?_some h
  simpa using this

/-- Equation: `createReservation` on insufficient stock. -/
theorem createReservation_insufficient (db : DB) (s p : Nat) (qty : Int) (u o : Option Nat)
    (ttl : Nat) (inv : Inventory) (hfa : findAvailInv db s p = some inv)
    (hlt : inv.quantityAvailable - inv.reservedQuantity < qty) :
    createReservation db s p qty u o ttl =
      (.error (.insufficientStock (inv.quantityAvailable - inv.reservedQuantity) qty), db) := by
  unfold createReservation reserveFromSnapshot
  rw [hfa]
  simp only
  rw [if_pos hlt]

/-- Equation: `createReservation` on sufficient stock. -/
theorem createReservation_ok (db : DB) (s p : Nat) (qty : Int) (u o : Option Nat)
    (ttl : Nat) (inv : Inventory) (hfa : findAvailInv db s p = some inv)
    (hkey : lookupInv db s p = some inv)
    (hle : qty ≤ inv.quantityAvailable - inv.reservedQuantity) :
    createReservation db s p qty u o ttl =
      (.ok ⟨db.nextId, s, p, qty, u, o, .reserved, db.now + ttl⟩,
        { db with
          inventory := db.inventory.map (incFn s p qty),
          reservations := db.reservations ++ [⟨db.nextId, s, p, qty, u, o, .reserved, db.now + ttl⟩],
          nextId := db.nextId + 1 }) := by
  unfold createReservation reserveFromSnapshot
  rw [hfa]
  simp only
  rw [if_neg (by omega)]
  rw [incReserved_ok _ _ _ _ (by
    show (lookupInv { db with
      reservations := db.reservations ++ [⟨db.nextId, s, p, qty, u, o, .reserved, db.now + ttl⟩],
      nextId := db.nextId + 1 } s p).isSome = true
    unfold lookupInv at hkey ⊢
    simp only
    rw [hkey]
    rfl)]


/-- Equation: `createReservation` without an available row. -/
theorem createReservation_noRow (db : DB) (s p : Nat) (qty : Int) (u o : Option Nat)
    (ttl : Nat) (hfa : findAvailInv db s p = none) :
    createReservation db s p qty u o ttl = (.error .productNotAvailable, db) := by
  unfold createReservation reserveFromSnapshot
  rw [hfa]

/-- C3: `createReservation` succeeds iff an available inventory row for the
key exists and `quantityAvailable - reservedQuantity ≥ qty`; on success the
row's `reservedQuantity` grows by exactly `qty`; on insufficient stock the
call fails with the error carrying the actual available quantity
(`quantityAvailable - reservedQuantity`) and the state is unchanged. -/
theorem createReservation_spec (db : DB) (s p : Nat) (qty : Int) (u o : Option Nat)
    (ttl : Nat) (hwf : InvWF db) (_hq : 1 ≤ qty) :
    ((createReservation db s p qty u o ttl).1.isOk = true ↔
      ∃ inv, findAvailInv db s p = some inv ∧
        qty ≤ inv.quantityAvailable - inv.reservedQuantity) ∧
    (∀ inv, findAvailInv db s p = some inv →
      (qty ≤ inv.quantityAvailable - inv.reservedQuantity →
        lookupInv (createReservation db s p qty u o ttl).2 s p =
          some { inv with reservedQuantity := inv.reservedQuantity + qty }) ∧
      (inv.quantityAvailable - inv.reservedQuantity < qty →
        createReservation db s p qty u o ttl =
          (.error (.insufficientStock (inv.quantityAvailable - inv.reservedQuantity) qty),
            db))) := by
  constructor
  · constructor
    · intro hok
      cases hfa : findAvailInv db s p with
      | none =>
        rw [createReservation_noRow db s p qty u o ttl hfa] at hok
        simp [Except.isOk, Except.toBool] at hok
      | some inv =>
        by_cases hle : qty ≤ inv.quantityAvailable - inv.reservedQuantity
        · exact ⟨inv, rfl, hle⟩
        · rw [createReservation_insufficient db s p qty u o ttl inv hfa (by omega)] at hok
          simp [Except.isOk, Except.toBool] at hok
    · rintro ⟨inv, hfa, hle⟩
      have hkey := find?_key_of_avail db.inventory s p inv hwf hfa
      rw [createReservation_ok db s p qty u o ttl inv hfa hkey hle]
      rfl
  · intro inv hfa
    have hkey := find?_key_of_avail db.inventory s p inv hwf hfa
    constructor
    · intro hle
      have hkey2 : lookupInv db s p = some inv := hkey
      rw [createReservation_ok db s p qty u o ttl inv hfa hkey hle]
      rw [lookupInv_map_incFn _ db s p s p qty rfl, hkey2]
      have hk := lookupInv_key db s p inv hkey2
      simp [incFn_eq_of_key s p qty inv hk.1 hk.2]
    · intro hlt
      exact createReservation_insufficient db s p qty u o ttl inv hfa hlt

/-- Witness for C3 at `dbRace` (5 in stock, 0 reserved, request 3). -/
theorem createReservation_spec_witness :
    InvWF dbRace ∧ 1 ≤ (3 : Int) ∧
    (((createReservation dbRace 1 1 3 none none 15).1.isOk = true ↔
      ∃ inv, findAvailInv dbRace 1 1 = some inv ∧
        3 ≤ inv.quantityAvailable - inv.reservedQuantity) ∧
    (∀ inv, findAvailInv dbRace 1 1 = some inv →
      (3 ≤ inv.quantityAvailable - inv.reservedQuantity →
        lookupInv (createReservation dbRace 1 1 3 none none 15).2 1 1 =
          some { inv with reservedQuantity := inv.reservedQuantity + 3 }) ∧
      (inv.quantityAvailable - inv.reservedQuantity < 3 →
        createReservation dbRace 1 1 3 none none 15 =
          (.error (.insufficientStock (inv.quantityAvailable - inv.reservedQuantity) 3),
            dbRace)))) :=
  ⟨by decide, by decide, createReservation_spec dbRace 1 1 3 none none 15 (by decide) (by decide)⟩



/-- Equation: `updateReservation` into a releasing status (`used`,
`released` or `expired`) rewrites the row and decrements the ledger. -/
theorem updateReservation_release_eq (db : DB) (rid : Nat) (st : RStatus) (oid : Option Nat)
    (r0 : Reservation) (hr : findRes db rid = some r0)
    (hst : st = RStatus.used ∨ st = RStatus.released ∨ st = RStatus.expired)
    (hsome : (lookupInv db r0.storeId r0.productId).isSome = true) :
    updateReservation db rid st oid =
      (.ok { r0 with status := st, orderId := (oid.orElse fun _ => r0.orderId) },
        { db with
          inventory := db.inventory.map (incFn r0.storeId r0.productId (-r0.quantity)),
          reservations := db.reservations.map (fun r =>
            if r.id = rid then { r with
              status := st, orderId := (oid.orElse fun _ => r.orderId) } else r) }) := by
  unfold updateReservation
  rw [hr]
  simp only
  rw [if_pos hst]
  rw [incReserved_ok2
    { db with
      reservations := db.reservations.map (fun r =>
        if r.id = rid then { r with
          status := st, orderId := (oid.orElse fun _ => r.orderId) } else r) }
    r0.storeId r0.productId (-r0.quantity) db.inventory rfl hsome]

/-- Equation: `updateReservation` into `reserved` or `cancelled` rewrites
the row only. -/
theorem updateReservation_noRelease_eq (db : DB) (rid : Nat) (st : RStatus) (oid : Option Nat)
    (r0 : Reservation) (hr : findRes db rid = some r0)
    (hst : ¬(st = RStatus.used ∨ st = RStatus.released ∨ st = RStatus.expired)) :
    updateReservation db rid st oid =
      (.ok { r0 with status := st, orderId := (oid.orElse fun _ => r0.orderId) },
        { db with
          reservations := db.reservations.map (fun r =>
            if r.id = rid then { r with
              status := st, orderId := (oid.orElse fun _ => r.orderId) } else r) }) := by
  unfold updateReservation
  rw [hr]
  simp only
  rw [if_neg hst]

/-- C6 amended: in `updateReservation` the reserved→used transition DOES
release the ledger hold — it decrements `reservedQuantity` by the
reservation's quantity exactly as `released`/`expired` do — while a
`cancelled` transition through `updateReservation` leaves the inventory
untouched; the checkout orchestrator's own reserved→used bulk update
(`markReservationsUsed`) writes no inventory row, so holds used through
checkout persist. -/
theorem updateReservation_ledger_effect (db : DB) (rid : Nat) (r0 : Reservation)
    (inv : Inventory) (hr : findRes db rid = some r0)
    (hinv : lookupInv db r0.storeId r0.productId = some inv) :
    lookupInv (updateReservation db rid RStatus.used none).2 r0.storeId r0.productId =
      some { inv with reservedQuantity := inv.reservedQuantity - r0.quantity } ∧
    (updateReservation db rid RStatus.cancelled none).2.inventory = db.inventory ∧
    (∀ ids oid, (markReservationsUsed db ids oid).inventory = db.inventory) := by
  refine ⟨?_, ?_, fun ids oid => rfl⟩
  · rw [updateReservation_release_eq db rid RStatus.used none r0 hr (by simp)
      (by rw [hinv]; rfl)]
    rw [lookupInv_map_incFn _ db r0.storeId r0.productId r0.storeId r0.productId
      (-r0.quantity) rfl, hinv]
    have hk := lookupInv_key db r0.storeId r0.productId inv hinv
    simp [incFn_eq_of_key _ _ (-r0.quantity) inv hk.1 hk.2, Int.sub_eq_add_neg]
  · rw [updateReservation_noRelease_eq db rid RStatus.cancelled none r0 hr (by simp)]

/-- Witness for C6's amended claim at `dbUsed`. -/
theorem updateReservation_ledger_effect_witness :
    findRes dbUsed 1 = some ⟨1, 1, 1, 2, some 7, none, RStatus.reserved, 100⟩ ∧
    lookupInv dbUsed 1 1 = some ⟨1, 1, 5, 2, true⟩ ∧
    (lookupInv (updateReservation dbUsed 1 RStatus.used none).2 1 1 =
      some ⟨1, 1, 5, 0, true⟩ ∧
    (updateReservation dbUsed 1 RStatus.cancelled none).2.inventory = dbUsed.inventory ∧
    (∀ ids oid, (markReservationsUsed dbUsed ids oid).inventory = dbUsed.inventory)) :=
  ⟨by decide, by decide,
    updateReservation_ledger_effect dbUsed 1 ⟨1, 1, 1, 2, some 7, none, RStatus.reserved, 100⟩
      ⟨1, 1, 5, 2, true⟩ (by decide) (by decide)⟩

/-- C7 amended: the request fingerprint is stored when the idempotency
record is created but never compared afterwards: whenever a completed
record exists for (key, user), `createOrder` replays its stored response
verbatim for EVERY request body carrying that key — matching fingerprint
or not — and writes nothing; no `IdempotencyKeyReused` rejection exists. -/
theorem completed_key_replays_any_body (catalog : Nat → Option Nat) (pay : Bool) (db : DB)
    (u : Nat) (data : OrderData) (k : Key) (rec : IdemRec)
    (hk : data.idempotencyKey = some k)
    (hrec : findIdem db k u = some rec)
    (hst : rec.status = IStatus.completed) :
    createOrder catalog pay db u data = (.ok (rec.response.getD Payload.nullResponse), db) := by
  unfold createOrder
  simp only [hk, hrec, hst]

/-- Witness for C7's amended claim: `dbFp` holds the completed record
`recFp` for key 42; the mismatching body `dataFp2` replays it. -/
theorem completed_key_replays_any_body_witness :
    dataFp2.idempotencyKey = some ⟨false, 42⟩ ∧
    findIdem dbFp ⟨false, 42⟩ 7 = some recFp ∧
    recFp.status = IStatus.completed ∧
    createOrder cat1 true dbFp 7 dataFp2 =
      (.ok (recFp.response.getD Payload.nullResponse), dbFp) :=
  ⟨by decide, by decide, by decide,
    completed_key_replays_any_body cat1 true dbFp 7 dataFp2 ⟨false, 42⟩ recFp
      (by decide) (by decide) (by decide)⟩


/-! ### Machinery for the checkout orchestrator proofs -/

/-- With unique keys, `find?` by the key of a member returns that member. -/
theorem find?_id_of_mem {α : Type} (key : α → Nat) (l : List α) (a : α)
    (hm : a ∈ l) (hnd : (l.map key).Nodup) :
    l.find? (fun x => key x = key a) = some a := by
  induction l with
  | nil => simp at hm
  | cons b t ih =>
    simp only [List.map_cons, List.nodup_cons] at hnd
    rcases List.mem_cons.mp hm with h | h
    · subst h
      simp [List.find?]
    · have hne : key b ≠ key a := fun he => hnd.1 (he ▸ List.mem_map_of_mem key h)
      simp only [List.find?]
      rw [show (decide (key b = key a)) = false from decide_eq_false hne]
      exact ih h hnd.2

/-- `findRes` of a member row under unique ids. -/
theorem findRes_of_mem (db : DB) (r : Reservation) (hm : r ∈ db.reservations)
    (hnd : ResWF db) : findRes db r.id = some r := by
  unfold ResWF at hnd
  exact find?_id_of_mem (fun x => x.id) db.reservations r hm hnd

/-- `find?` over an append whose first part has no match. -/
theorem find?_append_none {α : Type} (p : α → Bool) (l1 l2 : List α)
    (h : l1.find? p = none) : (l1 ++ l2).find? p = l2.find? p := by
  induction l1 with
  | nil => rfl
  | cons b t ih =>
    simp only [List.find?] at h ⊢
    cases hb : p b with
    | true => rw [hb] at h; simp at h
    | false =>
      rw [hb] at h
      simp only [List.cons_append, List.find?, hb]
      exact ih h

/-- A map that fixes every element is the identity on the list. -/
theorem map_eq_self {α : Type} (l : List α) (f : α → α) (h : ∀ x ∈ l, f x = x) :
    l.map f = l := by
  induction l with
  | nil => rfl
  | cons b t ih => simp only [List.map_cons, h b (by simp)]
                   rw [ih (fun x hx => h x (by simp [hx]))]


/-- One compensation step followed by later steps equals marking the whole
id set at once (ids distinct). -/
theorem setReleased_step (r : Reservation) (ids : List Nat) (hni : r.id ∉ ids)
    (x : Reservation) :
    setReleased ids (if x.id = r.id then { x with
      status := RStatus.released,
      orderId := ((none : Option Nat).orElse fun _ => x.orderId) } else x) =
    setReleased (r.id :: ids) x := by
  unfold setReleased
  by_cases hx : x.id = r.id
  · rw [if_pos hx, if_neg (by simpa [hx] using hni), if_pos (by simp [hx])]
    exact rfl
  · rw [if_neg hx]
    by_cases hmem : x.id ∈ ids
    · rw [if_pos hmem, if_pos (by simp [hmem])]
    · rw [if_neg hmem, if_neg (by simp [hx, hmem])]

/-- The compensation loop of `releaseReservationsForFailedOrder`, run on a
list of current rows with distinct ids whose inventory rows exist,
succeeds; it marks exactly those rows `released`, decrements the ledger by
each quantity, and touches nothing else. -/
theorem releaseList_ok (l : List Reservation) : ∀ (db : DB),
    ResWF db →
    (∀ r ∈ l, r ∈ db.reservations) →
    ((l.map fun r => r.id).Nodup) →
    (∀ r ∈ l, (lookupInv db r.storeId r.productId).isSome = true) →
    ∃ db2, releaseList db l = (.ok (), db2) ∧
      db2.reservations = db.reservations.map (setReleased (l.map fun r => r.id)) ∧
      db2.inventory = releaseAllInv db.inventory l ∧
      db2.idem = db.idem ∧ db2.orders = db.orders ∧ db2.orderItems = db.orderItems ∧
      db2.carts = db.carts ∧ db2.cartItems = db.cartItems ∧ db2.charges = db.charges ∧
      db2.nextId = db.nextId ∧ db2.nextUuid = db.nextUuid ∧ db2.stores = db.stores ∧
      db2.now = db.now := by
  induction l with
  | nil =>
    intro db _ _ _ _
    refine ⟨db, rfl, ?_, rfl, rfl, rfl, rfl, rfl, rfl, rfl, rfl, rfl, rfl, rfl⟩
    rw [map_eq_self db.reservations _ (fun x _ => by simp [setReleased])]
  | cons r t ih =>
    intro db hnd hmem hlnd hinv
    have hrmem : r ∈ db.reservations := hmem r (by simp)
    have hr : findRes db r.id = some r := findRes_of_mem db r hrmem hnd
    have hstep := updateReservation_release_eq db r.id RStatus.released none r hr
      (by simp) (hinv r (by simp))
    simp only [List.map_cons, List.nodup_cons] at hlnd
    have hids : ∀ x : Reservation, ((if x.id = r.id then { x with
        status := RStatus.released,
        orderId := ((none : Option Nat).orElse fun _ => x.orderId) } else x)).id = x.id :=
      fun x => by by_cases h : x.id = r.id <;> simp [h]
    obtain ⟨db2, hrel, hres, hinvout, hidem, hord, hoi, hc, hci, hch, hnid, hnuu, hsto,
        hnow⟩ :=
      ih { db with
            inventory := db.inventory.map (incFn r.storeId r.productId (-r.quantity)),
            reservations := db.reservations.map (fun x =>
              if x.id = r.id then { x with
                status := RStatus.released,
                orderId := ((none : Option Nat).orElse fun _ => x.orderId) } else x) }
        (by
          unfold ResWF
          simp only
          rw [List.map_map]
          rw [show ((fun r2 => r2.id) ∘ (fun x =>
            if x.id = r.id then { x with
              status := RStatus.released,
              orderId := ((none : Option Nat).orElse fun _ => x.orderId) } else x)) =
            (fun r2 : Reservation => r2.id) from funext fun x => hids x]
          exact hnd)
        (by
          intro x hx
          have hxm := hmem x (by simp [hx])
          have hne : x.id ≠ r.id := by
            intro he
            exact hlnd.1 (he ▸ List.mem_map_of_mem (fun r2 => r2.id) hx)
          exact List.mem_map.mpr ⟨x, hxm, if_neg hne⟩)
        hlnd.2
        (by
          intro x hx
          rw [lookupInv_map_incFn _ db x.storeId x.productId r.storeId r.productId
            (-r.quantity) rfl]
          have h3 := hinv x (by simp [hx])
          cases hcase : lookupInv db x.storeId x.productId with
          | none => rw [hcase] at h3; simp at h3
          | some v => rfl)
    refine ⟨db2, ?_, ?_, ?_, hidem, hord, hoi, hc, hci, hch, hnid, hnuu, hsto, hnow⟩
    · unfold releaseList
      rw [hstep]
      exact hrel
    · rw [hres]
      rw [List.map_map]
      rw [show (setReleased (t.map fun r2 : Reservation => r2.id) ∘ (fun x =>
        if x.id = r.id then { x with
          status := RStatus.released,
          orderId := ((none : Option Nat).orElse fun _ => x.orderId) } else x)) =
        setReleased (r.id :: t.map fun r2 : Reservation => r2.id) from
        funext fun x => setReleased_step r (t.map fun r2 : Reservation => r2.id) hlnd.1 x]
      rfl
    · rw [hinvout]
      rfl


/-- The only error the reservation loop can raise is the missing-row
throw of the inventory update. -/
theorem reserveLoop_error_shape (items : List CartItemR) : ∀ (db : DB) (u s : Nat) (e : Err),
    reserveLoop db u s items = .error e → e = Err.inventoryRowMissing := by
  induction items with
  | nil => intro db u s e h; simp [reserveLoop] at h
  | cons it rest ih =>
    intro db u s e h
    unfold reserveLoop at h
    simp only at h
    split at h
    · rename_i e2 heq
      cases h
      unfold incReserved at heq
      split at heq
      · exact absurd heq (by simp)
      · cases heq
        rfl
    · rename_i dbm heq
      split at h
      · rename_i e3 heq2
        cases h
        exact ih dbm u s e heq2
      · simp at h

/-- The reservation loop writes only the reservation and inventory tables
and consumes ids. -/
theorem reserveLoop_frame (items : List CartItemR) : ∀ (db : DB) (u s : Nat)
    (rs : List Reservation) (db2 : DB),
    reserveLoop db u s items = .ok (rs, db2) →
    db2.idem = db.idem ∧ db2.orders = db.orders ∧ db2.orderItems = db.orderItems ∧
    db2.carts = db.carts ∧ db2.cartItems = db.cartItems ∧ db2.charges = db.charges ∧
    db2.nextUuid = db.nextUuid ∧ db2.stores = db.stores ∧ db2.now = db.now ∧
    db.nextId ≤ db2.nextId := by
  induction items with
  | nil =>
    intro db u s rs db2 h
    simp [reserveLoop] at h
    rw [← h.2]
    exact ⟨rfl, rfl, rfl, rfl, rfl, rfl, rfl, rfl, rfl, Nat.le_refl _⟩
  | cons it rest ih =>
    intro db u s rs db2 h
    unfold reserveLoop at h
    simp only at h
    split at h
    · simp at h
    · rename_i dbm heq
      cases hrest : reserveLoop dbm u s rest with
      | error e3 => rw [hrest] at h; simp at h
      | ok pr =>
        obtain ⟨rs2, db3⟩ := pr
        rw [hrest] at h
        simp only at h
        cases h
        have hm := ih dbm u s rs2 db2 hrest
        unfold incReserved at heq
        split at heq
        · cases heq
          refine ⟨hm.1, hm.2.1, hm.2.2.1, hm.2.2.2.1, hm.2.2.2.2.1, hm.2.2.2.2.2.1,
            hm.2.2.2.2.2.2.1, hm.2.2.2.2.2.2.2.1, hm.2.2.2.2.2.2.2.2.1, ?_⟩
          have h9 : db.nextId + 1 ≤ db2.nextId := hm.2.2.2.2.2.2.2.2.2
          omega
        · exact absurd heq (by simp)

/-- The order-item loop writes only the order-item table and consumes
ids. -/
theorem mkOrderItems_frame (catalog : Nat → Option Nat) (items : List CartItemR) :
    ∀ (db : DB) (oid : Nat),
    (mkOrderItems catalog db oid items).2.inventory = db.inventory ∧
    (mkOrderItems catalog db oid items).2.reservations = db.reservations ∧
    (mkOrderItems catalog db oid items).2.idem = db.idem ∧
    (mkOrderItems catalog db oid items).2.orders = db.orders ∧
    (mkOrderItems catalog db oid items).2.carts = db.carts ∧
    (mkOrderItems catalog db oid items).2.cartItems = db.cartItems ∧
    (mkOrderItems catalog db oid items).2.charges = db.charges ∧
    (mkOrderItems catalog db oid items).2.nextUuid = db.nextUuid ∧
    (mkOrderItems catalog db oid items).2.stores = db.stores ∧
    (mkOrderItems catalog db oid items).2.now = db.now ∧
    db.nextId ≤ (mkOrderItems catalog db oid items).2.nextId := by
  induction items with
  | nil =>
    intro db oid
    exact ⟨rfl, rfl, rfl, rfl, rfl, rfl, rfl, rfl, rfl, rfl, Nat.le_refl _⟩
  | cons it rest ih =>
    intro db oid
    unfold mkOrderItems
    simp only
    refine ⟨(ih _ oid).1, (ih _ oid).2.1, (ih _ oid).2.2.1, (ih _ oid).2.2.2.1,
      (ih _ oid).2.2.2.2.1, (ih _ oid).2.2.2.2.2.1, (ih _ oid).2.2.2.2.2.2.1,
      (ih _ oid).2.2.2.2.2.2.2.1, (ih _ oid).2.2.2.2.2.2.2.2.1,
      (ih _ oid).2.2.2.2.2.2.2.2.2.1, ?_⟩
    exact Nat.le_trans (Nat.le_succ db.nextId)
      ((ih { db with
          orderItems := db.orderItems ++
            [{ id := db.nextId, orderId := oid, productId := it.productId,
               productName := match catalog it.productId with
                 | some n => PName.fromCatalog n
                 | none => PName.placeholder it.productId,
               quantity := it.quantity, unitPrice := it.priceAtTime,
               totalPrice := jsMul (jsNum it.priceAtTime) (Q.ofInt it.quantity) }],
          nextId := db.nextId + 1 } oid).2.2.2.2.2.2.2.2.2.2)


/-- `getCartWithItems` reads only the cart tables. -/
theorem getCartWithItems_congr (catalog : Nat → Option Nat) (db1 db : DB) (u s : Nat)
    (hc : db1.carts = db.carts) (hi : db1.cartItems = db.cartItems) :
    getCartWithItems catalog db1 u s = getCartWithItems catalog db u s := by
  unfold getCartWithItems getCart cartItemsOf
  rw [hc, hi]

/-- `validateCartForCheckout` reads only the cart tables and inventory. -/
theorem validateCart_congr (catalog : Nat → Option Nat) (db1 db : DB) (u s : Nat)
    (hc : db1.carts = db.carts) (hi : db1.cartItems = db.cartItems)
    (hv : db1.inventory = db.inventory) :
    validateCartForCheckout catalog db1 u s = validateCartForCheckout catalog db u s := by
  unfold validateCartForCheckout
  rw [getCartWithItems_congr catalog db1 db u s hc hi]
  have hvi : validateItem db1 s = validateItem db s := funext fun it => by
    unfold validateItem lookupInv
    rw [hv]
  rw [hvi]

/-- A generated key at or above the fresh counter matches no stored
record. -/
theorem findIdem_gen_none (db : DB) (u v : Nat) (hgen : GenKeysWF db)
    (hv : db.nextUuid ≤ v) : findIdem db ⟨true, v⟩ u = none := by
  unfold findIdem
  apply List.find?_eq_none.mpr
  intro r hr
  simp only [Bool.and_eq_true, decide_eq_true_eq]
  rintro ⟨hk, -⟩
  have hlt := hgen r hr (by rw [hk])
  rw [hk] at hlt
  simp at hlt
  omega

/-- Looking up (key, user) after the claim record was appended and then
marked: the result is the marked claim record, provided no earlier record
matches and ids are fresh. -/
theorem findIdem_mark (l : List IdemRec) (k : Key) (u : Nat) (rec0 : IdemRec)
    (st : IStatus) (resp : Option Payload)
    (hnone : l.find? (fun r => r.key = k && r.userId = u) = none)
    (hids : ∀ r ∈ l, r.id ≠ rec0.id)
    (hkey : rec0.key = k) (huser : rec0.userId = u) :
    ((l ++ [rec0]).map (fun r => if r.id = rec0.id then { r with
        status := st, response := resp } else r)).find?
      (fun r => r.key = k && r.userId = u) =
      some { rec0 with status := st, response := resp } := by
  rw [List.map_append]
  rw [find?_append_none _ _ _ (by
    rw [map_eq_self l _ (fun r hr => if_neg (hids r hr))]
    exact hnone)]
  simp only [List.map_cons, List.map_nil, if_pos rfl]
  simp [List.find?, hkey, huser]

/-- `createOrder` with a fresh client key runs the fresh path. -/
theorem createOrder_eq_fresh (catalog : Nat → Option Nat) (pay : Bool) (db : DB) (u : Nat)
    (data : OrderData) (k : Key)
    (hk : data.idempotencyKey = some k)
    (hfresh : findIdem db k u = none) :
    createOrder catalog pay db u data = createOrderFresh catalog pay db u data k := by
  unfold createOrder
  simp only [hk, hfresh]

/-- `createOrder` without a client key generates a fresh uuid and runs the
fresh path on the bumped state. -/
theorem createOrder_eq_fresh_gen (catalog : Nat → Option Nat) (pay : Bool) (db : DB)
    (u : Nat) (data : OrderData)
    (hk : data.idempotencyKey = none)
    (hfresh : findIdem { db with nextUuid := db.nextUuid + 1 } (genKey db) u = none) :
    createOrder catalog pay db u data =
      createOrderFresh catalog pay { db with nextUuid := db.nextUuid + 1 } u data
        (genKey db) := by
  unfold createOrder
  simp only [hk, hfresh]

/-- `createOrder` on a key whose record is completed replays the stored
response and writes nothing (the fingerprint plays no role). -/
theorem createOrder_completed_replay (catalog : Nat → Option Nat) (pay : Bool) (db : DB)
    (u : Nat) (data : OrderData) (k : Key) (rec : IdemRec)
    (hk : data.idempotencyKey = some k)
    (hrec : findIdem db k u = some rec)
    (hst : rec.status = IStatus.completed) :
    createOrder catalog pay db u data = (.ok (rec.response.getD Payload.nullResponse), db) := by
  unfold createOrder
  simp only [hk, hrec, hst]

/-- The catch-block after a failed attempt: the record is marked `failed`
with the error payload, every matching reservation of the user at the
store is released, the ledger is decremented accordingly, the original
error is rethrown and nothing else changes. -/
theorem failPath_ok (db2 : DB) (u s recId : Nat) (e : Err)
    (hres : ResWF db2)
    (hinvs : ∀ r ∈ matchedForRelease db2 u s, (lookupInv db2 r.storeId r.productId).isSome = true) :
    ∃ db4, failPath db2 u s recId e = (.error e, db4) ∧
      db4.reservations = db2.reservations.map
        (setReleased ((matchedForRelease db2 u s).map fun r => r.id)) ∧
      db4.inventory = releaseAllInv db2.inventory (matchedForRelease db2 u s) ∧
      db4.idem = db2.idem.map (fun r => if r.id = recId then { r with
        status := IStatus.failed, response := some (Payload.errorInfo e) } else r) ∧
      db4.orders = db2.orders ∧ db4.orderItems = db2.orderItems ∧
      db4.carts = db2.carts ∧ db4.cartItems = db2.cartItems ∧
      db4.charges = db2.charges ∧ db4.nextId = db2.nextId ∧
      db4.nextUuid = db2.nextUuid ∧ db4.stores = db2.stores ∧ db4.now = db2.now := by
  unfold failPath releaseReservationsForFailedOrder
  obtain ⟨db4, hrel, hresv, hinv2, hidem, hord, hoi, hc, hci, hch, hnid, hnuu, hsto, hnow⟩ :=
    releaseList_ok (matchedForRelease (markFailed db2 recId e) u s)
      (markFailed db2 recId e)
      hres
      (fun r hr => List.mem_of_mem_filter hr)
      (by
        unfold matchedForRelease
        have hsub : List.Sublist
            ((db2.reservations.filter (fun r => r.userId = some u && r.storeId = s &&
              r.status = RStatus.reserved && r.orderId = none)).map (fun r => r.id))
            (db2.reservations.map (fun r => r.id)) :=
          (List.filter_sublist _).map _
        exact hres.sublist hsub)
      hinvs
  refine ⟨db4, ?_, hresv, hinv2, hidem, hord, hoi, hc, hci, hch, hnid, hnuu, hsto, hnow⟩
  rw [hrel]


/-- With the payment oracle reporting failure, the transaction body
charges once and aborts with the payment error. -/
theorem txBody_payfail (catalog : Nat → Option Nat) (u : Nat) (data : OrderData)
    (cw : CartWI) (db1 : DB) (rs : List Reservation) (dbL : DB)
    (hloop : reserveLoop db1 u data.storeId (cw.items.map Prod.fst) = .ok (rs, dbL)) :
    ∃ dbX, txBody catalog false u data cw db1 = (.error Err.paymentFailed, dbX) ∧
      dbX.charges = db1.charges + 1 := by
  unfold txBody
  rw [hloop]
  simp only
  rw [if_neg (by simp)]
  refine ⟨_, rfl, ?_⟩
  have hmk : ∀ (d : DB) (o : Nat),
      (mkOrderItems catalog d o (cw.items.map Prod.fst)).2.charges = d.charges :=
    fun d o => (mkOrderItems_frame catalog (cw.items.map Prod.fst) d o).2.2.2.2.2.2.1
  rw [hmk]
  rw [(reserveLoop_frame (cw.items.map Prod.fst) db1 u data.storeId rs dbL
    hloop).2.2.2.2.2.1]

/-- C2 amended: for a checkout attempt with a fresh client key whose
payment call fails, the attempt's own transaction writes are rolled back
(the reservation table afterwards is the pre-attempt table with only
status marks, no new rows), the idempotency record for the key is
`failed` carrying the payment error, orders and order items are
unchanged, one charge was made — and the compensation releases EVERY
reservation of that user at that store that is `reserved` with no
attached order, decrementing `reservedQuantity` by each one's quantity
(reservations of other attempts included, so the ledger can end below
its pre-attempt value). -/
theorem payment_failure_compensation (catalog : Nat → Option Nat) (db : DB) (u : Nat)
    (data : OrderData) (k : Key) (db' : DB)
    (hk : data.idempotencyKey = some k)
    (hfresh : findIdem db k u = none)
    (hres : ResWF db)
    (hid : IdemIdsWF db)
    (hinvs : ∀ r ∈ matchedForRelease db u data.storeId,
      (lookupInv db r.storeId r.productId).isSome = true)
    (hrun : createOrder catalog false db u data = (.error Err.paymentFailed, db')) :
    db'.reservations = db.reservations.map
      (setReleased ((matchedForRelease db u data.storeId).map fun r => r.id)) ∧
    db'.inventory = releaseAllInv db.inventory (matchedForRelease db u data.storeId) ∧
    db'.orders = db.orders ∧
    db'.orderItems = db.orderItems ∧
    db'.charges = db.charges + 1 ∧
    (∃ rec, findIdem db' k u = some rec ∧ rec.status = IStatus.failed ∧
      rec.response = some (Payload.errorInfo Err.paymentFailed)) := by
  rw [createOrder_eq_fresh catalog false db u data k hk hfresh] at hrun
  unfold createOrderFresh attempt at hrun
  rw [validateCart_congr catalog (claimDB db k u data) db u data.storeId rfl rfl rfl] at hrun
  rw [getCartWithItems_congr catalog (claimDB db k u data) db u data.storeId rfl rfl] at hrun
  cases hval : validateCartForCheckout catalog db u data.storeId with
  | cons e0 es =>
    rw [hval] at hrun
    simp only at hrun
    obtain ⟨db4, hfp, h1, h2, h3, h4, h5, h6, h7, h8, h9, h10, h11, h12⟩ :=
      failPath_ok (claimDB db k u data) u data.storeId (claimRec db k u data).id
        (.cartValidationFailed (e0 :: es)) hres hinvs
    rw [hfp] at hrun
    simp at hrun
  | nil =>
    rw [hval] at hrun
    simp only at hrun
    cases hcw : getCartWithItems catalog db u data.storeId with
    | none =>
      rw [hcw] at hrun
      simp only at hrun
      obtain ⟨db4, hfp, h1, h2, h3, h4, h5, h6, h7, h8, h9, h10, h11, h12⟩ :=
        failPath_ok (claimDB db k u data) u data.storeId (claimRec db k u data).id
          Err.cartEmpty hres hinvs
      rw [hfp] at hrun
      simp at hrun
    | some cw =>
      rw [hcw] at hrun
      simp only at hrun
      by_cases hemp : cw.items.isEmpty = true
      · rw [if_pos hemp] at hrun
        simp only at hrun
        obtain ⟨db4, hfp, h1, h2, h3, h4, h5, h6, h7, h8, h9, h10, h11, h12⟩ :=
          failPath_ok (claimDB db k u data) u data.storeId (claimRec db k u data).id
            Err.cartEmpty hres hinvs
        rw [hfp] at hrun
        simp at hrun
      · rw [if_neg hemp] at hrun
        cases hloop : reserveLoop (claimDB db k u data) u data.storeId
            (cw.items.map Prod.fst) with
        | error e1 =>
          unfold txBody at hrun
          rw [hloop] at hrun
          simp only at hrun
          have he1 := reserveLoop_error_shape (cw.items.map Prod.fst) _ _ _ _ hloop
          subst he1
          obtain ⟨db4, hfp, h1, h2, h3, h4, h5, h6, h7, h8, h9, h10, h11, h12⟩ :=
            failPath_ok (txRollback (claimDB db k u data) (claimDB db k u data)) u
              data.storeId (claimRec db k u data).id Err.inventoryRowMissing hres hinvs
          rw [hfp] at hrun
          simp at hrun
        | ok pr =>
          obtain ⟨rs, dbL⟩ := pr
          obtain ⟨dbX, htx, hchX⟩ :=
            txBody_payfail catalog u data cw (claimDB db k u data) rs dbL hloop
          rw [htx] at hrun
          simp only at hrun
          obtain ⟨db4, hfp, h1, h2, h3, h4, h5, h6, h7, h8, h9, h10, h11, h12⟩ :=
            failPath_ok (txRollback (claimDB db k u data) dbX) u data.storeId
              (claimRec db k u data).id Err.paymentFailed hres hinvs
          rw [hfp] at hrun
          cases hrun
          refine ⟨h1, h2, h4, h5, ?_, ?_⟩
          · rw [h8]
            show dbX.charges = db.charges + 1
            rw [hchX]
            rfl
          · refine ⟨{ claimRec db k u data with
              status := IStatus.failed,
              response := some (Payload.errorInfo Err.paymentFailed) }, ?_, rfl, rfl⟩
            unfold findIdem
            rw [h3]
            exact findIdem_mark db.idem k u (claimRec db k u data) IStatus.failed
              (some (Payload.errorInfo Err.paymentFailed)) hfresh
              (fun r hr => by have hlt := hid r hr; unfold claimRec; simp; omega)
              rfl rfl

/-- Witness for the C2 amendment at `dbPay`: payment fails on user 7's
one-line cart while an unrelated `reserved` row (id 3) of the same user
exists; afterwards the transaction writes are gone, one charge was made,
the idempotency record is `failed` — and row 3 was released too, the
ledger dropping below its pre-attempt value. -/
theorem payment_failure_compensation_witness :
    findIdem dbPay ⟨false, 42⟩ 7 = none ∧
    ((createOrder cat1 false dbPay 7 dataK).2.reservations =
        dbPay.reservations.map
          (setReleased ((matchedForRelease dbPay 7 dataK.storeId).map fun r => r.id)) ∧
      (createOrder cat1 false dbPay 7 dataK).2.inventory =
        releaseAllInv dbPay.inventory (matchedForRelease dbPay 7 dataK.storeId) ∧
      (createOrder cat1 false dbPay 7 dataK).2.orders = dbPay.orders ∧
      (createOrder cat1 false dbPay 7 dataK).2.orderItems = dbPay.orderItems ∧
      (createOrder cat1 false dbPay 7 dataK).2.charges = dbPay.charges + 1 ∧
      (∃ rec, findIdem (createOrder cat1 false dbPay 7 dataK).2 ⟨false, 42⟩ 7 = some rec ∧
        rec.status = IStatus.failed ∧
        rec.response = some (Payload.errorInfo Err.paymentFailed))) :=
  ⟨by decide,
    payment_failure_compensation cat1 dbPay 7 dataK ⟨false, 42⟩
      (createOrder cat1 false dbPay 7 dataK).2
      (by decide) (by decide) (by decide) (by decide) (by decide) (by decide)⟩

/-- The catch-block always rethrows: it never produces a success. -/
theorem failPath_ne_ok (db2 : DB) (u s recId : Nat) (e : Err) (ret : Payload) (db4 : DB) :
    failPath db2 u s recId e ≠ (.ok ret, db4) := by
  unfold failPath
  cases hr : releaseReservationsForFailedOrder (markFailed db2 recId e) u s with
  | mk res dbr => cases res <;> simp

/-- A successful transaction: the idempotency table is untouched, exactly
one order row is appended, one charge is made, the uuid counter is
untouched and ids only grow. -/
theorem txBody_success_shape (catalog : Nat → Option Nat) (pay : Bool) (u : Nat)
    (data : OrderData) (cw : CartWI) (db1 : DB) (order : OrderR)
    (oitems : List OrderItemR) (db8 : DB)
    (h : txBody catalog pay u data cw db1 = (.ok (order, oitems), db8)) :
    db8.idem = db1.idem ∧
    db8.orders.length = db1.orders.length + 1 ∧
    db8.charges = db1.charges + 1 ∧
    db8.nextUuid = db1.nextUuid ∧
    db1.nextId ≤ db8.nextId := by
  unfold txBody at h
  cases hloop : reserveLoop db1 u data.storeId (cw.items.map Prod.fst) with
  | error e => rw [hloop] at h; simp at h
  | ok pr =>
    obtain ⟨rs, dbL⟩ := pr
    rw [hloop] at h
    simp only at h
    have hrf := reserveLoop_frame (cw.items.map Prod.fst) db1 u data.storeId rs dbL hloop
    cases pay with
    | false => simp at h
    | true =>
      simp only [if_true] at h
      cases h
      refine ⟨?_, ?_, ?_, ?_, ?_⟩
      · simp only [deleteCartItems, markReservationsUsed]
        rw [(mkOrderItems_frame catalog (cw.items.map Prod.fst) _ _).2.2.1]
        exact hrf.1
      · simp only [deleteCartItems, markReservationsUsed, List.length_map]
        rw [(mkOrderItems_frame catalog (cw.items.map Prod.fst) _ _).2.2.2.1]
        simp only [List.length_append, List.length_cons, List.length_nil]
        rw [hrf.2.1]
      · simp only [deleteCartItems, markReservationsUsed]
        rw [(mkOrderItems_frame catalog (cw.items.map Prod.fst) _ _).2.2.2.2.2.2.1]
        rw [hrf.2.2.2.2.2.1]
      · simp only [deleteCartItems, markReservationsUsed]
        rw [(mkOrderItems_frame catalog (cw.items.map Prod.fst) _ _).2.2.2.2.2.2.2.1]
        rw [hrf.2.2.2.2.2.2.1]
      · simp only [deleteCartItems, markReservationsUsed]
        refine Nat.le_trans ?_
          (mkOrderItems_frame catalog (cw.items.map Prod.fst) _ _).2.2.2.2.2.2.2.2.2.2
        show db1.nextId ≤ dbL.nextId + 1 + 1
        have h9 : db1.nextId ≤ dbL.nextId := hrf.2.2.2.2.2.2.2.2.2
        omega

/-- Shape of a successful fresh-path checkout: the return value is the
enriched view (or null if the re-read misses), the claim record ends
`completed` storing the raw transaction result, one order was appended,
one charge was made, the uuid counter is untouched and the id counter
grew. -/
theorem createOrderFresh_success_shape (catalog : Nat → Option Nat) (pay : Bool) (db : DB)
    (u : Nat) (data : OrderData) (k : Key) (ret : Payload) (db1 : DB)
    (hfresh : findIdem db k u = none)
    (hid : IdemIdsWF db)
    (h : createOrderFresh catalog pay db u data k = (.ok ret, db1)) :
    ((∃ v, ret = Payload.orderView v) ∨ ret = Payload.nullResponse) ∧
    (∃ order oitems,
      db1.idem = (db.idem ++ [claimRec db k u data]).map (fun r =>
        if r.id = (claimRec db k u data).id then { r with
          status := IStatus.completed,
          response := some (Payload.txResult order oitems) } else r) ∧
      findIdem db1 k u = some { claimRec db k u data with
        status := IStatus.completed,
        response := some (Payload.txResult order oitems) }) ∧
    db1.orders.length = db.orders.length + 1 ∧
    db1.charges = db.charges + 1 ∧
    db1.nextUuid = db.nextUuid ∧
    db.nextId < db1.nextId := by
  unfold createOrderFresh attempt at h
  rw [validateCart_congr catalog (claimDB db k u data) db u data.storeId rfl rfl rfl] at h
  rw [getCartWithItems_congr catalog (claimDB db k u data) db u data.storeId rfl rfl] at h
  cases hval : validateCartForCheckout catalog db u data.storeId with
  | cons e0 es =>
    rw [hval] at h
    simp only at h
    exact absurd h (failPath_ne_ok _ _ _ _ _ _ _)
  | nil =>
    rw [hval] at h
    simp only at h
    cases hcw : getCartWithItems catalog db u data.storeId with
    | none =>
      rw [hcw] at h
      simp only at h
      exact absurd h (failPath_ne_ok _ _ _ _ _ _ _)
    | some cw =>
      rw [hcw] at h
      simp only at h
      by_cases hemp : cw.items.isEmpty = true
      · rw [if_pos hemp] at h
        simp only at h
        exact absurd h (failPath_ne_ok _ _ _ _ _ _ _)
      · rw [if_neg hemp] at h
        cases htx : txBody catalog pay u data cw (claimDB db k u data) with
        | mk txr db8 =>
          rw [htx] at h
          cases txr with
          | error e =>
            simp only at h
            exact absurd h (failPath_ne_ok _ _ _ _ _ _ _)
          | ok pr =>
            obtain ⟨order0, oitems0⟩ := pr
            simp only at h
            have htf := txBody_success_shape catalog pay u data cw
              (claimDB db k u data) order0 oitems0 db8 htx
            cases hv : getOrderById { db8 with idem := db8.idem.map (fun r =>
                if r.id = (claimRec db k u data).id then { r with
                  status := IStatus.completed,
                  response := some (Payload.txResult order0 oitems0) } else r) } order0.id with
            | some v =>
              rw [hv] at h
              cases h
              refine ⟨Or.inl ⟨v, rfl⟩, ⟨order0, oitems0, ?_, ?_⟩, ?_, ?_, ?_, ?_⟩
              · show db8.idem.map _ = _
                rw [htf.1]
                rfl
              · unfold findIdem
                show (db8.idem.map _).find? _ = _
                rw [htf.1]
                exact findIdem_mark db.idem k u (claimRec db k u data) IStatus.completed
                  (some (Payload.txResult order0 oitems0)) hfresh
                  (fun r hr => by have hlt := hid r hr; unfold claimRec; simp; omega)
                  rfl rfl
              · show db8.orders.length = _
                rw [htf.2.1]
                rfl
              · show db8.charges = _
                rw [htf.2.2.1]
                rfl
              · show db8.nextUuid = _
                rw [htf.2.2.2.1]
                rfl
              · show db.nextId < db8.nextId
                have h9 : db.nextId + 1 ≤ db8.nextId := htf.2.2.2.2
                omega
            | none =>
              rw [hv] at h
              cases h
              refine ⟨Or.inr rfl, ⟨order0, oitems0, ?_, ?_⟩, ?_, ?_, ?_, ?_⟩
              · show db8.idem.map _ = _
                rw [htf.1]
                rfl
              · unfold findIdem
                show (db8.idem.map _).find? _ = _
                rw [htf.1]
                exact findIdem_mark db.idem k u (claimRec db k u data) IStatus.completed
                  (some (Payload.txResult order0 oitems0)) hfresh
                  (fun r hr => by have hlt := hid r hr; unfold claimRec; simp; omega)
                  rfl rfl
              · show db8.orders.length = _
                rw [htf.2.1]
                rfl
              · show db8.charges = _
                rw [htf.2.2.1]
                rfl
              · show db8.nextUuid = _
                rw [htf.2.2.2.1]
                rfl
              · show db.nextId < db8.nextId
                have h9 : db.nextId + 1 ≤ db8.nextId := htf.2.2.2.2
                omega

/-- C5 amended: for two checkout calls with the same client idempotency
key, the same user and the identical payload where the first succeeds,
the first call creates exactly one order and makes exactly one charge,
and the second call writes nothing and replays the stored response — but
that replayed payload is the raw `{order, items}` transaction result,
which is never equal to the payload the first call actually returned
(the enriched `getOrderById` view, or null). -/
theorem idempotent_checkout_replay (catalog : Nat → Option Nat) (pay1 pay2 : Bool)
    (db : DB) (u : Nat) (data : OrderData) (k : Key) (ret1 : Payload) (db1 : DB)
    (hk : data.idempotencyKey = some k)
    (hfresh : findIdem db k u = none)
    (hid : IdemIdsWF db)
    (h1 : createOrder catalog pay1 db u data = (.ok ret1, db1)) :
    db1.orders.length = db.orders.length + 1 ∧
    db1.charges = db.charges + 1 ∧
    ∃ o its, createOrder catalog pay2 db1 u data = (.ok (Payload.txResult o its), db1) ∧
      Payload.txResult o its ≠ ret1 := by
  rw [createOrder_eq_fresh catalog pay1 db u data k hk hfresh] at h1
  have hs := createOrderFresh_success_shape catalog pay1 db u data k ret1 db1 hfresh hid h1
  obtain ⟨hret, ⟨o, its, hidem1, hfind⟩, hlen, hch, hnuu, hnid⟩ := hs
  refine ⟨hlen, hch, o, its, ?_, ?_⟩
  · rw [createOrder_completed_replay catalog pay2 db1 u data k _ hk hfind rfl]
    rfl
  · intro heq
    cases hret with
    | inl hv =>
      obtain ⟨v, hv2⟩ := hv
      rw [hv2] at heq
      exact Payload.noConfusion heq
    | inr hnull =>
      rw [hnull] at heq
      exact Payload.noConfusion heq

/-- Witness for the C5 amendment at `dbIdem`: the first call (payment
succeeds) creates one order and one charge; the replay (even with the
payment oracle failing) writes nothing and returns the raw transaction
result, a payload different from the first call's return value. -/
theorem idempotent_checkout_replay_witness :
    (createOrder cat1 true dbIdem 7 dataK).2.orders.length = dbIdem.orders.length + 1 ∧
    (createOrder cat1 true dbIdem 7 dataK).2.charges = dbIdem.charges + 1 ∧
    ∃ o its,
      createOrder cat1 false (createOrder cat1 true dbIdem 7 dataK).2 7 dataK =
        (.ok (Payload.txResult o its), (createOrder cat1 true dbIdem 7 dataK).2) ∧
      Payload.txResult o its ≠ okPayload (createOrder cat1 true dbIdem 7 dataK).1 :=
  idempotent_checkout_replay cat1 true false dbIdem 7 dataK ⟨false, 42⟩
    (okPayload (createOrder cat1 true dbIdem 7 dataK).1)
    (createOrder cat1 true dbIdem 7 dataK).2
    (by decide) (by decide) (by decide) (by decide)

/-- Marking a record (by id) with a status and response keeps its key. -/
theorem markFn_key (n : Nat) (st : IStatus) (resp : Option Payload) (r : IdemRec) :
    (if r.id = n then { r with status := st, response := resp } else r).key = r.key := by
  by_cases hc : r.id = n
  · rw [if_pos hc]
  · rw [if_neg hc]

/-- Marking a record (by id) with a status and response keeps its id. -/
theorem markFn_id (n : Nat) (st : IStatus) (resp : Option Payload) (r : IdemRec) :
    (if r.id = n then { r with status := st, response := resp } else r).id = r.id := by
  by_cases hc : r.id = n
  · rw [if_pos hc]
  · rw [if_neg hc]

/-- C10: a checkout call without a client idempotency key draws a fresh
generated key for that call alone: the call runs the fresh path and
leaves a completed record under `genKey db`, one new order and one
charge; an identical second request draws a different key (`genKey db1`),
under which no record exists — so neither replay nor the in-progress
conflict fires, the second call provably takes the fresh path, and if it
succeeds it adds its own record, its own order and its own charge. -/
theorem no_key_fresh_uuid (catalog : Nat → Option Nat) (pay1 pay2 : Bool) (db : DB)
    (u : Nat) (data : OrderData) (ret1 : Payload) (db1 : DB)
    (hk : data.idempotencyKey = none)
    (hid : IdemIdsWF db)
    (hgen : GenKeysWF db)
    (h1 : createOrder catalog pay1 db u data = (.ok ret1, db1)) :
    (∃ rec1, findIdem db1 (genKey db) u = some rec1 ∧ rec1.status = IStatus.completed) ∧
    db1.orders.length = db.orders.length + 1 ∧
    db1.charges = db.charges + 1 ∧
    genKey db1 ≠ genKey db ∧
    findIdem db1 (genKey db1) u = none ∧
    createOrder catalog pay2 db1 u data =
      createOrderFresh catalog pay2 { db1 with nextUuid := db1.nextUuid + 1 } u data
        (genKey db1) ∧
    (∀ ret2 db2, createOrder catalog pay2 db1 u data = (.ok ret2, db2) →
      db2.orders.length = db.orders.length + 2 ∧ db2.charges = db.charges + 2 ∧
      ∃ rec2, findIdem db2 (genKey db1) u = some rec2) := by
  have hfresh1 : findIdem { db with nextUuid := db.nextUuid + 1 } (genKey db) u = none :=
    findIdem_gen_none db u db.nextUuid hgen (Nat.le_refl _)
  rw [createOrder_eq_fresh_gen catalog pay1 db u data hk hfresh1] at h1
  have hid0 : IdemIdsWF { db with nextUuid := db.nextUuid + 1 } := hid
  have hs1 := createOrderFresh_success_shape catalog pay1
    { db with nextUuid := db.nextUuid + 1 } u data (genKey db) ret1 db1 hfresh1 hid0 h1
  obtain ⟨-, ⟨o1, i1, hidem1, hfind1⟩, hlen1, hch1, hnuu1, hnid1⟩ := hs1
  have hnu : db1.nextUuid = db.nextUuid + 1 := hnuu1
  have hlen1a : db1.orders.length = db.orders.length + 1 := hlen1
  have hch1a : db1.charges = db.charges + 1 := hch1
  have hgen1 : GenKeysWF db1 := by
    intro rec hrec hrecg
    rw [hidem1] at hrec
    simp only [List.mem_map, List.mem_append, List.mem_singleton] at hrec
    obtain ⟨r0, hr0, hfn⟩ := hrec
    have hkeq : rec.key = r0.key := by
      rw [← hfn]
      exact markFn_key _ IStatus.completed (some (Payload.txResult o1 i1)) r0
    cases hr0 with
    | inl hmem =>
      have hv := hgen r0 hmem (by rw [hkeq] at hrecg; exact hrecg)
      rw [hkeq, hnu]
      omega
    | inr hcl =>
      rw [hkeq, hcl, hnu]
      exact Nat.lt_succ_self db.nextUuid
  have hid1 : IdemIdsWF db1 := by
    intro rec hrec
    rw [hidem1] at hrec
    simp only [List.mem_map, List.mem_append, List.mem_singleton] at hrec
    obtain ⟨r0, hr0, hfn⟩ := hrec
    have hieq : rec.id = r0.id := by
      rw [← hfn]
      exact markFn_id _ IStatus.completed (some (Payload.txResult o1 i1)) r0
    have h9 : db.nextId < db1.nextId := hnid1
    cases hr0 with
    | inl hmem =>
      have hv := hid r0 hmem
      rw [hieq]
      omega
    | inr hcl =>
      rw [hieq, hcl]
      exact h9
  have hfresh2 : findIdem { db1 with nextUuid := db1.nextUuid + 1 } (genKey db1) u = none :=
    findIdem_gen_none db1 u db1.nextUuid hgen1 (Nat.le_refl _)
  refine ⟨⟨_, hfind1, rfl⟩, hlen1a, hch1a, ?_, hfresh2, ?_, ?_⟩
  · intro he
    have h0 : db1.nextUuid = db.nextUuid := congrArg Key.val he
    omega
  · exact createOrder_eq_fresh_gen catalog pay2 db1 u data hk hfresh2
  · intro ret2 db2 h2
    rw [createOrder_eq_fresh_gen catalog pay2 db1 u data hk hfresh2] at h2
    have hid1a : IdemIdsWF { db1 with nextUuid := db1.nextUuid + 1 } := hid1
    have hs2 := createOrderFresh_success_shape catalog pay2
      { db1 with nextUuid := db1.nextUuid + 1 } u data (genKey db1) ret2 db2 hfresh2 hid1a h2
    obtain ⟨-, ⟨o2, i2, hidem2, hfind2⟩, hlen2, hch2, hnuu2, hnid2⟩ := hs2
    have hlen2a : db2.orders.length = db1.orders.length + 1 := hlen2
    have hch2a : db2.charges = db1.charges + 1 := hch2
    refine ⟨?_, ?_, ⟨_, hfind2⟩⟩
    · omega
    · omega

/-- Witness for C10 at `dbIdem`: one successful keyless checkout; the next
identical request's generated key differs and matches no stored record. -/
theorem no_key_fresh_uuid_witness :
    (∃ rec1, findIdem (createOrder cat1 true dbIdem 7 dataNoKey).2 (genKey dbIdem) 7 =
      some rec1 ∧ rec1.status = IStatus.completed) ∧
    genKey (createOrder cat1 true dbIdem 7 dataNoKey).2 ≠ genKey dbIdem ∧
    findIdem (createOrder cat1 true dbIdem 7 dataNoKey).2
      (genKey (createOrder cat1 true dbIdem 7 dataNoKey).2) 7 = none := by
  have h := no_key_fresh_uuid cat1 true true dbIdem 7 dataNoKey
    (okPayload (createOrder cat1 true dbIdem 7 dataNoKey).1)
    (createOrder cat1 true dbIdem 7 dataNoKey).2
    (by decide) (by decide) (by decide) (by decide)
  exact ⟨h.1, h.2.2.2.1, h.2.2.2.2.1⟩

end MultiStore
